import Mathlib

/-!
Verification development for the thistle-gulch message bridge
(`src/python/thistle_gulch/`): the wire envelope, the incoming-message
router (`__init__.py:IncomingMessageRouter.handle_message`), the lifecycle
endpoints (`bridge.py:OnReadyEndpoint`, `OnSimulationTickEndpoint`,
`OnSimulationEventEndpoint`, `OnSimulationErrorEndpoint`), the outbound
command surface (`api.py`) and the Strategy-A send path
(`runtime.py:Runtime.send_message`).

Dictionaries that the handlers read only at a fixed set of keys are
embedded as records of optional fields; the values of the `event_data`
sub-dictionary are kept opaque as string pairs.  Side effects (outbound
commands, hook invocations, future resolutions) are embedded as an
explicit trace of `Effect` values in program order.
-/

namespace ThistleGulch

/-- The fields of the `data` dictionary of a wire message that the embedded
handlers read (`event_name`, `event_data` from
`OnSimulationEventEndpoint.handle_request`; `start_date`, `runtime_version`
from `OnReadyEndpoint.handle_request`; `current_time` from
`OnSimulationTickEndpoint.handle_request`; `action` is the key the event
endpoint folds a hook-provided replacement action into its response under).
A missing key is `none`. -/
structure MsgData where
  event_name : Option String := none
  event_data : Option (List (String × String)) := none
  start_date : Option String := none
  runtime_version : Option String := none
  current_time : Option String := none
  action : Option String := none
deriving DecidableEq, Repr

/-- `thistle_gulch.GenericMessage`: the wire envelope
`{type, data, reference, error}` (`__init__.py`). -/
structure GenericMessage where
  typ : String
  data : MsgData := {}
  reference : Option String := none
  error : Option String := none
deriving DecidableEq, Repr

/-- Observable side effects of the embedded handlers, in program order.
`simCmd c` is `send_message("simulation-command", {"command": c, ...})`,
`charCmd c g` is `send_message("character-command", {"command": c,
"persona_guid": g, ...})`, `resolveFuture fid pl` is
`event_futures[reference].set_result(event_data)` on the future with
identity `fid`, and the `call*` effects are lifecycle hook invocations. -/
inductive Effect where
  | simCmd (command : String)
  | charCmd (command : String) (persona_guid : String)
  | callOnReady
  | callOnTick
  | callOnError
  | callOnEvent
  | callHook (name : String)
  | resolveFuture (fid : Nat) (payload : List (String × String))
deriving DecidableEq, Repr

/-- Python truthiness of an optional string (`if persona_cfg.summary:`):
present and non-empty. -/
def strTruthy : Option String → Bool
  | some s => s != ""
  | none => false

/-- `pat` occurs as a prefix of some suffix of `hay`. -/
def listContains (pat : List Char) : List Char → Bool
  | [] => pat.isPrefixOf []
  | c :: rest => pat.isPrefixOf (c :: rest) || listContains pat rest

/-- `pat` occurs as a contiguous substring of `hay`. -/
def strContains (hay pat : String) : Bool :=
  listContains pat.toList hay.toList

/-! ## The simulation-event endpoint

`bridge.py:OnSimulationEventEndpoint.handle_request` (lines 297-385).

The reference→future map `self.bridge.runtime.event_futures` that the
handler reads is not defined anywhere under `src/`:
`runtime.py:Runtime.__init__` creates no such attribute, and
`runtime.py:Runtime.send_message` has no `future` parameter that could
register one.  Modelled from the spec: the spec's `PendingRequest`
reference→future map of the Correlator (spec §3, §4.2 Strategy B) is
embedded as an association list from reference strings to opaque future
identities, carried as explicit state.  Futures are identified by a `Nat`;
a resolution is the trace effect `Effect.resolveFuture`. -/

/-- Which lifecycle hooks are registered on the `RuntimeBridge`
(`bridge.py:RuntimeBridge.__init__`).  `onActionComplete = some r` means
the `on_action_complete` hook is registered and, when invoked, returns `r`
(`some a` = a replacement action, `none` = `None`). -/
structure EventHooks where
  onActionComplete : Option (Option String) := none
  onCharacterFocused : Bool := false
  onCharacterUnfocused : Bool := false
  onSimObjectSelected : Bool := false
  onEvent : Bool := false
deriving DecidableEq, Repr

/-- Result of one run of the simulation-event handler: the updated
reference→future map, the effect trace, and the returned response
envelope. -/
structure EventResult where
  eventFutures : List (String × Nat)
  trace : List Effect
  response : GenericMessage
deriving DecidableEq, Repr

/-- The `elif` chain of dedicated event hooks
(`bridge.py` lines 318-371): each branch fires only when the hook is
registered, the `event_name` matches, and `event_data` is truthy
(non-empty).  Returns the branch's trace and the optional replacement
action returned by `on_action_complete`. -/
def dispatchSpecific (hooks : EventHooks) (event_name : String)
    (dataNonempty : Bool) : List Effect × Option String :=
  if hooks.onActionComplete.isSome && event_name == "on-action-complete"
      && dataNonempty then
    ([Effect.callHook "on_action_complete"], hooks.onActionComplete.getD none)
  else if hooks.onCharacterFocused && event_name == "on-character-focused"
      && dataNonempty then
    ([Effect.callHook "on_character_focused"], none)
  else if hooks.onCharacterUnfocused && event_name == "on-character-unfocused"
      && dataNonempty then
    ([Effect.callHook "on_character_unfocused"], none)
  else if hooks.onSimObjectSelected && event_name == "on-sim-object-selected"
      && dataNonempty then
    ([Effect.callHook "on_sim_object_selected"], none)
  else ([], none)

/-- `del event_futures[reference]`: remove the entry keyed `r`. -/
def eraseRef (r : String) (futs : List (String × Nat)) : List (String × Nat) :=
  futs.filter (fun p => p.1 != r)

/-- `bridge.py:OnSimulationEventEndpoint.handle_request`: if the frame's
`reference` keys a pending future, resolve it with `event_data` and delete
the entry (skipping the dedicated hooks); otherwise run the dedicated-hook
`elif` chain; in every case invoke the generic `on_event` hook last if
registered, and return a `simulation-event-response` envelope echoing the
frame's reference, with any replacement action folded into its data. -/
def handle_simulation_event (hooks : EventHooks)
    (eventFutures : List (String × Nat)) (msg : GenericMessage) :
    EventResult :=
  let event_name := msg.data.event_name.getD ""
  let event_data := msg.data.event_data.getD []
  let step : List (String × Nat) × List Effect × Option String :=
    match msg.reference with
    | some r =>
      match eventFutures.lookup r with
      | some fid =>
        (eraseRef r eventFutures, [Effect.resolveFuture fid event_data], none)
      | none =>
        let d := dispatchSpecific hooks event_name (event_data != [])
        (eventFutures, d.1, d.2)
    | none =>
      let d := dispatchSpecific hooks event_name (event_data != [])
      (eventFutures, d.1, d.2)
  { eventFutures := step.1
    trace := step.2.1 ++ (if hooks.onEvent then [Effect.callOnEvent] else [])
    response :=
      { typ := "simulation-event-response"
        data := { action := step.2.2 }
        reference := msg.reference } }

/-! ## The simulation-ready endpoint

`bridge.py:OnReadyEndpoint.handle_request` (lines 167-275).  The handler
(1) structures `data["start_date"]` (raising when absent), (2) raises when
`data.get("runtime_version", "")` is neither `"local.build"` nor prefixed
by the runtime's required version (`runtime.py` sets
`self.required_version = "1.47.0-beta"`), (3) pauses, (4) requests the
world context, (5) applies the persona configuration loop, (6) invokes
the `on_ready` hook if registered, and (7) resumes iff the hook returned
true (or no hook is registered). -/

/-- One configured memory of a persona configuration
(`persona_cfg.memories` entries as used by `bridge.py` lines 252-262;
the `PersonaConfig`/memory-config classes themselves are imported from
`data_models` by `bridge.py` but are absent from `src/`, so the fields
are those the loop reads). -/
structure MemoryCfg where
  timestamp : String := ""
  summary : String := ""
deriving DecidableEq, Repr

/-- One persona configuration entry, with exactly the fields
`bridge.py:OnReadyEndpoint.handle_request` reads (lines 209-262); the
class itself is imported from `data_models` but absent from `src/`. -/
structure PersonaConfig where
  persona_guid : String := ""
  summary : Option String := none
  description : Option String := none
  backstory : Option String := none
  actions_enabled : Bool := false
  conversations_enabled : Bool := false
  memories : List MemoryCfg := []
deriving DecidableEq, Repr

/-- The commands the persona-configuration loop body emits for one entry
(`bridge.py` lines 211-262): skip on a falsy `persona_guid`, skip (log
only) when the guid is not among the world personas, else update each
truthy property, enable the agent when either capability flag is set,
and clear-then-add memories when any are configured.

Modelled from the spec: `api.update_character_property` (singular), the
per-property updater `bridge.py` calls, has no definition under `src/`
(`api.py` only defines the batch `update_character_properties`); per the
command surface of spec section 4.4 and section 6 it is embedded as a thin
wrapper emitting one `character-command` of command
`update-character-properties` for the one property. -/
def personaCfgTrace (worldPersonas : List String) (pc : PersonaConfig) :
    List Effect :=
  if pc.persona_guid == "" then []
  else if !(worldPersonas.contains pc.persona_guid) then []
  else
    (if strTruthy pc.summary then
      [Effect.charCmd "update-character-properties" pc.persona_guid] else [])
    ++ (if strTruthy pc.description then
      [Effect.charCmd "update-character-properties" pc.persona_guid] else [])
    ++ (if strTruthy pc.backstory then
      [Effect.charCmd "update-character-properties" pc.persona_guid] else [])
    ++ (if pc.actions_enabled || pc.conversations_enabled then
      [Effect.charCmd "enable-agent" pc.persona_guid] else [])
    ++ (if pc.memories != [] then
      Effect.charCmd "character-memory-clear" pc.persona_guid
        :: pc.memories.map (fun _ =>
          Effect.charCmd "character-memory-add" pc.persona_guid)
      else [])

/-- The whole persona-configuration loop. -/
def personaTrace (worldPersonas : List String)
    (cfgs : List PersonaConfig) : List Effect :=
  cfgs.flatMap (personaCfgTrace worldPersonas)

/-- The bridge-side configuration the ready handler runs against: the
required runtime version (`runtime.py:Runtime.__init__`), the persona
configurations, the personas of the world context the runtime returns to
`get_world_context`, and whether an `on_ready` hook is registered together
with the boolean it returns when invoked. -/
structure ReadyCfg where
  requiredVersion : String := "1.47.0-beta"
  personaConfigs : List PersonaConfig := []
  worldPersonas : List String := []
  onReady : Option Bool := none
deriving DecidableEq, Repr

/-- Result of one run of the ready handler: the effects performed before
returning or raising, and the raised exception's message if any. -/
structure ReadyResult where
  trace : List Effect := []
  error : Option String := none
deriving DecidableEq, Repr

/-- `bridge.py:OnReadyEndpoint.handle_request`.  The `start_date`
structuring and the version check run before any command is sent; the
pause strictly precedes the world-context request, the persona loop, the
`on_ready` invocation and any resume. -/
def on_ready_handle_request (cfg : ReadyCfg) (msg : GenericMessage) :
    ReadyResult :=
  match msg.data.start_date with
  | none => { error := some "could not structure start_date as datetime" }
  | some _ =>
    let rv := msg.data.runtime_version.getD ""
    if rv != "local.build" && !(rv.startsWith cfg.requiredVersion) then
      { error := some ("Incorrect Runtime version detected - expected "
          ++ cfg.requiredVersion ++ " but found " ++ rv) }
    else
      let setup := Effect.simCmd "pause"
        :: Effect.simCmd "request-world-context"
        :: personaTrace cfg.worldPersonas cfg.personaConfigs
      match cfg.onReady with
      | some b =>
        { trace := setup ++ [Effect.callOnReady]
            ++ (if b then [Effect.simCmd "resume"] else []) }
      | none => { trace := setup ++ [Effect.simCmd "resume"] }

/-! ## The remaining endpoints and the router

`bridge.py:OnSimulationTickEndpoint.handle_request`,
`OnSimulationErrorEndpoint.handle_request`, and
`__init__.py:IncomingMessageRouter.handle_message` (lines 140-188). -/

/-- The typed endpoints the bridge registers on the router
(`bridge.py:RuntimeBridge.__init__`, ADD ROUTES block). -/
inductive Endpoint where
  | ready (cfg : ReadyCfg)
  | tick (onTick : Bool)
  | simEvent (hooks : EventHooks) (futures : List (String × Nat))
  | simError
deriving DecidableEq, Repr

/-- What one `handle_request` invocation produced: its effect trace, the
message of the exception it raised if any, and its return value (`none`
models a handler returning `None`). -/
structure EndpointOutcome where
  trace : List Effect := []
  raised : Option String := none
  response : Option GenericMessage := none
deriving DecidableEq, Repr

/-- Dispatch into the four bridge endpoints.  The tick handler structures
`data["current_time"]` and invokes `on_tick` if registered
(`bridge.py` lines 283-294); the error handler always has an `on_error`
callback (a logging default is installed in `RuntimeBridge.__init__`). -/
def runEndpoint : Endpoint → GenericMessage → EndpointOutcome
  | .ready cfg, msg =>
    let r := on_ready_handle_request cfg msg
    { trace := r.trace, raised := r.error }
  | .tick onTick, msg =>
    (match msg.data.current_time with
     | none =>
       ({ raised := some "could not structure current_time as datetime" }
         : EndpointOutcome)
     | some _ => { trace := if onTick then [Effect.callOnTick] else [] })
  | .simEvent hooks futs, msg =>
    let r := handle_simulation_event hooks futs msg
    { trace := r.trace, response := some r.response }
  | .simError, _ => { trace := [Effect.callOnError] }

/-- An inbound frame on the `messages` channel as the router sees it.
`badJson` is a payload `json.loads` rejects; `noType` is a decoded object
with no `"type"` key; `frame` is a decoded object with a type, where
`structOk` says whether `converter.structure(message, request_type)`
succeeds and `valDetail`/`stack` carry the validation failure text and the
stack trace of the raised exception. -/
inductive Inbound where
  | badJson (detail stack : String)
  | noType (reference : Option String) (stack : String)
  | frame (msg : GenericMessage) (structOk : Bool) (valDetail stack : String)
deriving DecidableEq, Repr

/-- The error envelope the router builds on any failure
(`__init__.py` line 186: `GenericMessage("error", error=error)`): type
`"error"`, empty data, and no reference. -/
def errEnvelope (e : String) : GenericMessage :=
  { typ := "error", error := some e }

/-- Result of `handle_message`: the endpoint effects that ran and the
value returned to the transport (`none` = no response sent). -/
structure RouterResult where
  trace : List Effect := []
  output : Option GenericMessage := none
deriving DecidableEq, Repr

/-- `__init__.py:IncomingMessageRouter.handle_message`: decode the JSON,
require a `"type"` key, require a registered route, structure the request,
run the endpoint, and unstructure its result; every raised exception is
converted into an `error` envelope whose message names the cause, with
the stack trace only logged (the envelope is built from the summary text
alone and is independent of the `stack` fields). -/
def handle_message (routes : List (String × Endpoint)) :
    Inbound → RouterResult
  | .badJson detail _ =>
    { output := some (errEnvelope ("Error decoding JSON: " ++ detail)) }
  | .noType _ _ =>
    { output := some (errEnvelope
        "Error processing request: Message is missing a type.") }
  | .frame msg structOk valDetail _ =>
    match routes.lookup msg.typ with
    | none =>
      { output := some (errEnvelope
          ("Error processing request: Unknown message type: " ++ msg.typ)) }
    | some ep =>
      if !structOk then
        { output := some (errEnvelope
            ("Error validating request: " ++ valDetail)) }
      else
        let r := runEndpoint ep msg
        match r.raised with
        | some e =>
          { trace := r.trace
            output := some (errEnvelope ("Error processing request: " ++ e)) }
        | none => { trace := r.trace, output := r.response }

/-- The four lifecycle routes the bridge registers
(`bridge.py` ADD ROUTES block, message types from `IncomingRoutes`). -/
def bridgeRoutes (rcfg : ReadyCfg) (onTick : Bool) (hooks : EventHooks)
    (futures : List (String × Nat)) : List (String × Endpoint) :=
  [("simulation-ready", .ready rcfg),
   ("simulation-tick", .tick onTick),
   ("simulation-event", .simEvent hooks futures),
   ("simulation-error", .simError)]

/-! ## Strategy A: `runtime.py:Runtime.send_message` (lines 72-158)

One call of `send_message` against a transport environment.  The control
flow of the source: check `self.sid`, acquire `self.emit_lock`, emit with
an acknowledgement callback (releasing the lock and re-raising on an emit
failure), `asyncio.wait_for(future, timeout)` on the acknowledgement
future, then decode and validate the response.  The callback - and only
the callback, besides the emit-failure handler - releases the lock; the
`except asyncio.TimeoutError` branch (lines 124-128) re-raises without
releasing it. -/

/-- The transport environment one `send_message` call runs against:
whether `self.sid` is set, whether `sio.emit` succeeds, when (if ever) the
acknowledgement callback fires, and the decoded shape of the
acknowledgement payload. -/
structure SendEnv where
  sidPresent : Bool := true
  emitOk : Bool := true
  ackAt : Option Nat := none
  respJsonOk : Bool := true
  respError : Option String := none
deriving DecidableEq, Repr

/-- Outcome of one `send_message` call: whether it returned a
`GenericMessage`, the exception it raised otherwise, whether
`self.emit_lock` is still held at the moment the call returns or raises,
and whether the lock is ever released afterwards (a late acknowledgement
still runs the callback, which releases the lock and then observes the
cancelled future). -/
structure SendOutcome where
  returnedOk : Bool
  raised : Option String
  lockHeldAfter : Bool
  lockEverReleased : Bool
deriving DecidableEq, Repr

/-- `runtime.py:Runtime.send_message` with its default `timeout=5`
(seconds).  The acknowledgement wins iff it arrives strictly before the
timeout expires. -/
def send_message (env : SendEnv) (timeout : Nat := 5) : SendOutcome :=
  if !env.sidPresent then
    { returnedOk := false, raised := some "ValueError: simulation sid is None"
      lockHeldAfter := false, lockEverReleased := false }
  else if !env.emitOk then
    { returnedOk := false, raised := some "emit error"
      lockHeldAfter := false, lockEverReleased := true }
  else
    match env.ackAt with
    | some t =>
      if t < timeout then
        if !env.respJsonOk then
          { returnedOk := false, raised := some "JSONDecodeError"
            lockHeldAfter := false, lockEverReleased := true }
        else
          match env.respError with
          | some e =>
            { returnedOk := false
              raised := some ("ValueError: Runtime Error: " ++ e)
              lockHeldAfter := false, lockEverReleased := true }
          | none =>
            { returnedOk := true, raised := none
              lockHeldAfter := false, lockEverReleased := true }
      else
        { returnedOk := false, raised := some "TimeoutError"
          lockHeldAfter := true, lockEverReleased := true }
    | none =>
      { returnedOk := false, raised := some "TimeoutError"
        lockHeldAfter := true, lockEverReleased := false }

/-! ## The `future` argument of `override_character_action` and `modal`

`api.py:API.override_character_action` (lines 284-319) and
`api.py:API.modal` (lines 424-458) pass their `future` argument as the
THIRD POSITIONAL argument of `Runtime.send_message` - whose signature in
`runtime.py` line 72 is `send_message(self, msg_type, data, timeout=5)`:
the future lands in the `timeout` parameter, and no code under `src/`
ever registers it in a reference→future map (`Runtime.__init__` defines
no `event_futures` attribute at all). -/

/-- A Python value bound to `send_message`'s `timeout` parameter. -/
inductive PyArg where
  | num (n : Nat)
  | fut (fid : Nat)
  | noneV
deriving DecidableEq, Repr

/-- Result of the `src/` `send_message` as seen by a caller that supplied
a future: the reference→future map (threaded through unchanged - the
source body never mentions it), the emitted wire message
(type, command, reference), and the value that ended up bound to the
`timeout` parameter. -/
structure SendSrcResult where
  eventFutures : List (String × Nat)
  emitted : List (String × String × String)
  ackTimeoutArg : PyArg
deriving DecidableEq, Repr

/-- The `src/` `Runtime.send_message` signature and its (absent) effect on
the reference→future map: it generates a fresh `reference` (supplied here
as an oracle argument), emits the message, and uses its third parameter
only as the acknowledgement timeout.  It registers nothing. -/
def send_message_src (eventFutures : List (String × Nat))
    (msgType command ref : String) (timeout : PyArg := .num 5) :
    SendSrcResult :=
  { eventFutures := eventFutures
    emitted := [(msgType, command, ref)]
    ackTimeoutArg := timeout }

/-- `api.py:API.override_character_action`: emits the
`override-character-action` character command, passing `future` as the
third positional argument of `send_message`. -/
def override_character_action (eventFutures : List (String × Nat))
    (_persona_guid : String) (future : Option Nat) (ref : String) :
    SendSrcResult :=
  send_message_src eventFutures "character-command"
    "override-character-action" ref
    (match future with | some f => .fut f | none => .noneV)

/-- `api.py:API.modal`: emits the `modal` simulation command, passing
`future` as the third positional argument of `send_message`. -/
def modal (eventFutures : List (String × Nat)) (future : Option Nat)
    (ref : String) : SendSrcResult :=
  send_message_src eventFutures "simulation-command" "modal" ref
    (match future with | some f => .fut f | none => .noneV)

/-! ## `api.py:API.set_start_date` (lines 83-101)

The source sends the `set-start-date` simulation command unconditionally
and then records `self.runtime.start_date = date`; it consults no tracked
simulation state and reports no local precondition error.  The `resumed`
flag below is ghost bookkeeping recording whether `API.resume` was ever
called, so that statements can quantify over the after-first-resume
situation; no `src/` code reads any such state. -/

/-- Command-surface state: the ghost `resumed` flag and the recorded
`runtime.start_date`. -/
structure ApiState where
  resumed : Bool := false
  startDate : Option String := none
deriving DecidableEq, Repr

/-- Outcome of one command-surface call: the updated state, the wire
commands emitted, and a locally reported precondition error if any. -/
structure ApiCallResult where
  state : ApiState
  emitted : List Effect
  errorReported : Option String := none
deriving DecidableEq, Repr

/-- `api.py:API.resume`: sends the `resume` simulation command (and sets
the ghost flag). -/
def api_resume (s : ApiState) : ApiCallResult :=
  { state := { s with resumed := true }
    emitted := [Effect.simCmd "resume"] }

/-- `api.py:API.set_start_date`: sends the `set-start-date` simulation
command unconditionally and records the date; no precondition is
checked and no local error is reported. -/
def set_start_date (s : ApiState) (date : String) : ApiCallResult :=
  { state := { s with startDate := some date }
    emitted := [Effect.simCmd "set-start-date"] }

/-! ## Two concurrent Strategy-A callers on the emit lock

`runtime.py:Runtime.send_message` serializes callers on
`self.emit_lock` (an `asyncio.Lock`): a caller acquires the lock before
emitting and the lock is released by the acknowledgement callback.  The
interleavings of two callers are embedded as a labelled transition
system: each caller requests the lock (granted immediately when free,
else FIFO-queued, matching `asyncio.Lock`), emits while holding it, and
releases it when its acknowledgement arrives (waking the queue head).
The observable history is the `trace`. -/

/-- Where one caller is in its `send_message` call. -/
inductive Phase where
  | idle
  | queued
  | holding
  | emitted
  | done
deriving DecidableEq, Repr

/-- Trace events of the two-caller system: caller `i` called
`send_message` (reaching `emit_lock.acquire`), caller `i`'s `sio.emit`
ran, caller `i`'s acknowledgement callback released the lock. -/
inductive LockEv where
  | request (i : Bool)
  | emit (i : Bool)
  | release (i : Bool)
deriving DecidableEq, Repr

/-- State of the two callers (`false` and `true`), the lock holder, the
FIFO wait queue, and the event trace. -/
structure LockSys where
  p0 : Phase := .idle
  p1 : Phase := .idle
  holder : Option Bool := none
  queue : List Bool := []
  trace : List LockEv := []
deriving DecidableEq, Repr

/-- Caller `i`'s phase. -/
def lsPhase (s : LockSys) (i : Bool) : Phase :=
  if i then s.p1 else s.p0

/-- Replace caller `i`'s phase. -/
def lsSetPhase (s : LockSys) (i : Bool) (ph : Phase) : LockSys :=
  if i then { s with p1 := ph } else { s with p0 := ph }

/-- `acquire` on a free lock: granted immediately. -/
def stReqFree (s : LockSys) (i : Bool) : LockSys :=
  { lsSetPhase s i .holding with
    holder := some i
    queue := s.queue
    trace := s.trace ++ [.request i] }

/-- `acquire` on a held lock: FIFO-queued. -/
def stReqQueued (s : LockSys) (i : Bool) : LockSys :=
  { lsSetPhase s i .queued with
    holder := s.holder
    queue := s.queue ++ [i]
    trace := s.trace ++ [.request i] }

/-- `sio.emit` while holding the lock. -/
def stEmit (s : LockSys) (i : Bool) : LockSys :=
  { lsSetPhase s i .emitted with
    holder := s.holder
    queue := s.queue
    trace := s.trace ++ [.emit i] }

/-- Acknowledgement callback releases the lock; nobody is waiting. -/
def stRelNone (s : LockSys) (i : Bool) : LockSys :=
  { lsSetPhase s i .done with
    holder := none
    queue := s.queue
    trace := s.trace ++ [.release i] }

/-- Acknowledgement callback releases the lock; the queue head `j` is
woken and becomes the holder. -/
def stRelWake (s : LockSys) (i j : Bool) : LockSys :=
  { lsSetPhase (lsSetPhase s i .done) j .holding with
    holder := some j
    queue := s.queue.tail
    trace := s.trace ++ [.release i] }

/-- One step of the two-caller emit-lock system. -/
inductive LockStep : LockSys → LockSys → Prop where
  | reqFree (s : LockSys) (i : Bool) (h1 : lsPhase s i = .idle)
      (h2 : s.holder = none) : LockStep s (stReqFree s i)
  | reqQueued (s : LockSys) (i j : Bool) (h1 : lsPhase s i = .idle)
      (h2 : s.holder = some j) : LockStep s (stReqQueued s i)
  | emit (s : LockSys) (i : Bool) (h : lsPhase s i = .holding) :
      LockStep s (stEmit s i)
  | relNone (s : LockSys) (i : Bool) (h1 : lsPhase s i = .emitted)
      (h2 : s.queue = []) : LockStep s (stRelNone s i)
  | relWake (s : LockSys) (i j : Bool) (rest : List Bool)
      (h1 : lsPhase s i = .emitted) (h2 : s.queue = j :: rest) :
      LockStep s (stRelWake s i j)

/-- States reachable from both-idle, lock-free, empty-trace start. -/
def LockReachable (s : LockSys) : Prop :=
  Relation.ReflTransGen LockStep {} s

/-- Scan of a trace checking emit/release alternation: the accumulator is
the caller whose emit is outstanding (not yet released).  `none` as the
overall result marks a violation: a second emit before the outstanding
one's release, or a release that does not match the outstanding emit. -/
def altOk : List LockEv → Option Bool → Option (Option Bool)
  | [], c => some c
  | (.request _) :: rest, c => altOk rest c
  | (.emit i) :: rest, c =>
    (match c with
     | none => altOk rest (some i)
     | some _ => none)
  | (.release i) :: rest, c =>
    (match c with
     | some j => if i = j then altOk rest none else none
     | none => none)

/-- The caller (if any) whose emit is outstanding in state `s`. -/
def emittedHolder (s : LockSys) : Option Bool :=
  if s.p0 = .emitted then some false
  else if s.p1 = .emitted then some true
  else none

/-! ### Helper lemmas for the lock system -/

theorem lsSetPhase_trace (s : LockSys) (i : Bool) (ph : Phase) :
    (lsSetPhase s i ph).trace = s.trace := by
  cases i <;> rfl

theorem lsSetPhase_holder (s : LockSys) (i : Bool) (ph : Phase) :
    (lsSetPhase s i ph).holder = s.holder := by
  cases i <;> rfl

theorem lsSetPhase_queue (s : LockSys) (i : Bool) (ph : Phase) :
    (lsSetPhase s i ph).queue = s.queue := by
  cases i <;> rfl

theorem lsPhase_setPhase_same (s : LockSys) (i : Bool) (ph : Phase) :
    lsPhase (lsSetPhase s i ph) i = ph := by
  cases i <;> rfl

theorem lsPhase_setPhase_other (s : LockSys) (i j : Bool) (ph : Phase)
    (h : i ≠ j) : lsPhase (lsSetPhase s i ph) j = lsPhase s j := by
  cases i <;> cases j <;> simp_all [lsPhase, lsSetPhase]

theorem altOk_append (a b : List LockEv) (c : Option Bool) :
    altOk (a ++ b) c =
      (match altOk a c with
       | some d => altOk b d
       | none => none) := by
  induction a generalizing c with
  | nil => rfl
  | cons e t ih =>
    cases e with
    | request i => simpa [altOk] using ih c
    | emit i =>
      cases c with
      | none => simpa [altOk] using ih (some i)
      | some j => simp [altOk]
    | release i =>
      cases c with
      | none => simp [altOk]
      | some j =>
        by_cases h : i = j
        · simpa [altOk, h] using ih none
        · simp [altOk, h]

/-- From the outstanding-emit state, the scan only returns to the idle
state through the matching release. -/
theorem altOk_release_mem (y : List LockEv) (i : Bool)
    (h : altOk y (some i) = some none) : LockEv.release i ∈ y := by
  induction y with
  | nil => simp [altOk] at h
  | cons e t ih =>
    cases e with
    | request k => exact List.mem_cons_of_mem _ (ih (by simpa [altOk] using h))
    | emit k => simp [altOk] at h
    | release k =>
      by_cases hk : k = i
      · subst hk; exact List.mem_cons_self _ _
      · simp [altOk, hk] at h

/-- A request-pair sublist extended by one more event. -/
theorem pair_sublist_extend {α : Type} {a b e : α} {l : List α}
    (h : List.Sublist [a, b] l) : List.Sublist [a, b] (l ++ [e]) :=
  h.trans (List.sublist_append_left l [e])

/-- If `a` already occurs, appending `e` puts `a` before `e`. -/
theorem mem_pair_sublist_append {α : Type} {a e : α} {l : List α}
    (h : a ∈ l) : List.Sublist [a, e] (l ++ [e]) := by
  have h1 : List.Sublist [a] l := List.singleton_sublist.mpr h
  simpa using h1.append (List.Sublist.refl [e])

/-- Decompose a two-element sublist of `l ++ [e]`. -/
theorem pair_sublist_append_singleton {α : Type} {a b e : α} {l : List α}
    (h : List.Sublist [a, b] (l ++ [e])) : List.Sublist [a, b] l ∨ (b = e ∧ a ∈ l) := by
  induction l with
  | nil =>
    have := h.length_le
    simp at this
  | cons x t ih =>
    cases h with
    | cons _ h2 =>
      rcases ih h2 with h3 | ⟨h3, h4⟩
      · exact Or.inl (List.Sublist.cons x h3)
      · exact Or.inr ⟨h3, List.mem_cons_of_mem x h4⟩
    | cons₂ _ h2 =>
      have hb : b ∈ t ++ [e] := (List.singleton_sublist).mp h2
      rcases List.mem_append.mp hb with h3 | h3
      · exact Or.inl (List.Sublist.cons₂ _ (List.singleton_sublist.mpr h3))
      · exact Or.inr ⟨by simpa using h3, List.mem_cons_self _ _⟩

/-- Count over an appended singleton. -/
theorem count_append_singleton {α : Type} [DecidableEq α] (l : List α)
    (e x : α) :
    (l ++ [e]).count x = l.count x + if x = e then 1 else 0 := by
  rw [List.count_append, List.count_cons, List.count_nil]
  simp only [beq_iff_eq, Nat.zero_add]
  by_cases h : x = e
  · simp [h]
  · have h2 : ¬e = x := fun he => h he.symm
    simp [h, h2]

/-- Counting an element never decreases under a cons. -/
theorem count_le_cons {α : Type} [DecidableEq α] (a b : α) (l : List α) :
    l.count a ≤ (b :: l).count a := by
  rw [List.count_cons]
  split <;> omega

/-- Two opposite orders of distinct events force a repetition. -/
theorem pair_sublist_antisymm {α : Type} [DecidableEq α] {x y : α}
    {l : List α} (h1 : List.Sublist [x, y] l) (h2 : List.Sublist [y, x] l) (hxy : x ≠ y) :
    2 ≤ l.count x ∨ 2 ≤ l.count y := by
  induction l with
  | nil =>
    have := h1.length_le
    simp at this
  | cons e t ih =>
    cases h1 with
    | cons _ h1t =>
      cases h2 with
      | cons _ h2t =>
        rcases ih h1t h2t with h | h
        · exact Or.inl (le_trans h (count_le_cons x e t))
        · exact Or.inr (le_trans h (count_le_cons y e t))
      | cons₂ _ h2t =>
        have hy : y ∈ t :=
          h1t.subset (List.mem_cons_of_mem x (List.mem_cons_self y []))
        have h3 : 0 < t.count y := List.count_pos_iff.mpr hy
        refine Or.inr ?_
        rw [List.count_cons_self]
        omega
    | cons₂ _ h1t =>
      cases h2 with
      | cons _ h2t =>
        have hx : x ∈ t :=
          h2t.subset (List.mem_cons_of_mem y (List.mem_cons_self x []))
        have h3 : 0 < t.count x := List.count_pos_iff.mpr hx
        refine Or.inl ?_
        rw [List.count_cons_self]
        omega
      | cons₂ _ _ => exact absurd rfl hxy

/-- The inductive invariant of the two-caller emit-lock system: the lock
holder is exactly the caller between `acquire` and its callback's
`release`; the queue holds exactly the waiting callers, FIFO and without
duplicates and never while the lock is free; the trace records each
caller's request/emit/release exactly while the caller has passed the
corresponding point; a queued caller requested after the current holder;
a finished caller requested before any currently active one; emits occur
in request order; and the emit/release events of the trace alternate, the
outstanding emitter matching the state. -/
structure LockInv (s : LockSys) : Prop where
  holderIff : ∀ i, s.holder = some i ↔
    (lsPhase s i = .holding ∨ lsPhase s i = .emitted)
  queueIff : ∀ i, i ∈ s.queue ↔ lsPhase s i = .queued
  queueNodup : s.queue.Nodup
  queueNeedsHolder : s.queue ≠ [] → s.holder ≠ none
  reqMem : ∀ i, LockEv.request i ∈ s.trace ↔ lsPhase s i ≠ .idle
  emitMem : ∀ i, LockEv.emit i ∈ s.trace ↔
    (lsPhase s i = .emitted ∨ lsPhase s i = .done)
  relMem : ∀ i, LockEv.release i ∈ s.trace ↔ lsPhase s i = .done
  reqOnce : ∀ i, s.trace.count (LockEv.request i) ≤ 1
  queuedAfterHolder : ∀ i j, lsPhase s i = .queued → s.holder = some j →
    List.Sublist [LockEv.request j, LockEv.request i] s.trace
  doneBeforeActive : ∀ i j,
    (lsPhase s i = .holding ∨ lsPhase s i = .emitted) →
    lsPhase s j = .done →
    List.Sublist [LockEv.request j, LockEv.request i] s.trace
  emitOrder : ∀ i j, i ≠ j →
    List.Sublist [LockEv.request i, LockEv.request j] s.trace →
    LockEv.emit j ∈ s.trace →
    List.Sublist [LockEv.emit i, LockEv.emit j] s.trace
  altInv : altOk s.trace none = some (emittedHolder s)

/-- The invariant holds in the initial state. -/
theorem lockInv_init : LockInv {} := by
  constructor <;> simp [lsPhase, emittedHolder, altOk]

theorem lsPhase_stReqFree (s : LockSys) (i k : Bool) :
    lsPhase (stReqFree s i) k = if k = i then Phase.holding else lsPhase s k := by
  cases i <;> cases k <;> simp [stReqFree, lsPhase, lsSetPhase]

theorem lsPhase_stReqQueued (s : LockSys) (i k : Bool) :
    lsPhase (stReqQueued s i) k =
      if k = i then Phase.queued else lsPhase s k := by
  cases i <;> cases k <;> simp [stReqQueued, lsPhase, lsSetPhase]

theorem lsPhase_stEmit (s : LockSys) (i k : Bool) :
    lsPhase (stEmit s i) k = if k = i then Phase.emitted else lsPhase s k := by
  cases i <;> cases k <;> simp [stEmit, lsPhase, lsSetPhase]

theorem lsPhase_stRelNone (s : LockSys) (i k : Bool) :
    lsPhase (stRelNone s i) k = if k = i then Phase.done else lsPhase s k := by
  cases i <;> cases k <;> simp [stRelNone, lsPhase, lsSetPhase]

theorem lsPhase_stRelWake (s : LockSys) (i j k : Bool) :
    lsPhase (stRelWake s i j) k =
      if k = j then Phase.holding
      else if k = i then Phase.done else lsPhase s k := by
  cases i <;> cases j <;> cases k <;> simp [stRelWake, lsPhase, lsSetPhase]

theorem stReqFree_fields (s : LockSys) (i : Bool) :
    (stReqFree s i).holder = some i ∧ (stReqFree s i).queue = s.queue ∧
      (stReqFree s i).trace = s.trace ++ [.request i] :=
  ⟨rfl, rfl, rfl⟩

/-- Preservation of the invariant under an immediately granted acquire. -/
theorem lockInv_reqFree (s : LockSys) (i : Bool) (hInv : LockInv s)
    (h1 : lsPhase s i = .idle) (h2 : s.holder = none) :
    LockInv (stReqFree s i) := by
  have hNoActive : ∀ k, ¬(lsPhase s k = .holding ∨ lsPhase s k = .emitted) := by
    intro k hk
    exact (Option.some_ne_none k) (((hInv.holderIff k).mpr hk).symm.trans h2)
  have hQEmpty : s.queue = [] := by
    by_contra hne
    exact hInv.queueNeedsHolder hne h2
  have hNoQueued : ∀ k, lsPhase s k ≠ .queued := by
    intro k hk
    have := (hInv.queueIff k).mpr hk
    rw [hQEmpty] at this
    simp at this
  constructor
  case holderIff =>
    intro k
    rw [(stReqFree_fields s i).1, lsPhase_stReqFree]
    by_cases hk : k = i
    · subst hk; simp
    · simp only [if_neg hk]
      constructor
      · intro h; exact absurd (Option.some_inj.mp h).symm hk
      · intro h; exact absurd h (hNoActive k)
  case queueIff =>
    intro k
    rw [(stReqFree_fields s i).2.1, lsPhase_stReqFree, hQEmpty]
    by_cases hk : k = i
    · subst hk; simp
    · simp only [if_neg hk]
      simp only [List.not_mem_nil, false_iff]
      exact fun h => hNoQueued k h
  case queueNodup =>
    rw [(stReqFree_fields s i).2.1, hQEmpty]; exact List.nodup_nil
  case queueNeedsHolder =>
    rw [(stReqFree_fields s i).1]
    intro _; simp
  case reqMem =>
    intro k
    rw [(stReqFree_fields s i).2.2, lsPhase_stReqFree]
    by_cases hk : k = i
    · subst hk; simp
    · simp only [if_neg hk, List.mem_append, List.mem_singleton]
      rw [show ((LockEv.request k = LockEv.request i) = (k = i)) by
        simp [LockEv.request.injEq]]
      simp [hk, hInv.reqMem k]
  case emitMem =>
    intro k
    rw [(stReqFree_fields s i).2.2, lsPhase_stReqFree]
    have : (LockEv.emit k ∈ s.trace ++ [LockEv.request i]) =
        (LockEv.emit k ∈ s.trace) := by simp
    rw [this]
    by_cases hk : k = i
    · subst hk
      simp only [if_pos rfl]
      rw [hInv.emitMem k, h1]
      simp
    · simp only [if_neg hk]; exact hInv.emitMem k
  case relMem =>
    intro k
    rw [(stReqFree_fields s i).2.2, lsPhase_stReqFree]
    have : (LockEv.release k ∈ s.trace ++ [LockEv.request i]) =
        (LockEv.release k ∈ s.trace) := by simp
    rw [this]
    by_cases hk : k = i
    · subst hk
      simp only [if_pos rfl]
      rw [hInv.relMem k, h1]
      simp
    · simp only [if_neg hk]; exact hInv.relMem k
  case reqOnce =>
    intro k
    rw [(stReqFree_fields s i).2.2, count_append_singleton]
    by_cases hk : LockEv.request k = LockEv.request i
    · have hki : k = i := by simpa [LockEv.request.injEq] using hk
      subst hki
      have : LockEv.request k ∉ s.trace := by
        rw [hInv.reqMem k]; simp [h1]
      have hz : s.trace.count (LockEv.request k) = 0 :=
        List.count_eq_zero.mpr this
      simp [hz, hk]
    · simp [hk]
      exact hInv.reqOnce k
  case queuedAfterHolder =>
    intro a b ha _
    rw [lsPhase_stReqFree] at ha
    by_cases hai : a = i
    · subst hai; simp at ha
    · rw [if_neg hai] at ha
      exact absurd ha (hNoQueued a)
  case doneBeforeActive =>
    intro a b ha hb
    rw [(stReqFree_fields s i).2.2]
    rw [lsPhase_stReqFree] at ha hb
    by_cases hbi : b = i
    · subst hbi; simp at hb
    · rw [if_neg hbi] at hb
      by_cases hai : a = i
      · subst hai
        have hbmem : LockEv.request b ∈ s.trace := by
          rw [hInv.reqMem b, hb]; simp
        exact mem_pair_sublist_append hbmem
      · rw [if_neg hai] at ha
        exact absurd ha (hNoActive a)
  case emitOrder =>
    intro a b hab hpair hbmem
    rw [(stReqFree_fields s i).2.2] at hpair hbmem ⊢
    have hbmem2 : LockEv.emit b ∈ s.trace := by
      rcases List.mem_append.mp hbmem with h | h
      · exact h
      · simp at h
    rcases pair_sublist_append_singleton hpair with hp | ⟨hp1, _⟩
    · exact pair_sublist_extend (hInv.emitOrder a b hab hp hbmem2)
    · have hbi : b = i := by simpa [LockEv.request.injEq] using hp1
      subst hbi
      rw [hInv.emitMem b, h1] at hbmem2
      simp at hbmem2
  case altInv =>
    rw [(stReqFree_fields s i).2.2, altOk_append, hInv.altInv]
    have hsame : emittedHolder (stReqFree s i) = emittedHolder s := by
      have hii : lsPhase s i = Phase.idle := h1
      cases i <;>
        simp_all [emittedHolder, stReqFree, lsSetPhase, lsPhase]
    rw [hsame]
    rfl

theorem stReqQueued_fields (s : LockSys) (i : Bool) :
    (stReqQueued s i).holder = s.holder ∧
      (stReqQueued s i).queue = s.queue ++ [i] ∧
      (stReqQueued s i).trace = s.trace ++ [.request i] :=
  ⟨rfl, rfl, rfl⟩

/-- Preservation of the invariant under an acquire that queues. -/
theorem lockInv_reqQueued (s : LockSys) (i j : Bool) (hInv : LockInv s)
    (h1 : lsPhase s i = .idle) (h2 : s.holder = some j) :
    LockInv (stReqQueued s i) := by
  have hjActive : lsPhase s j = .holding ∨ lsPhase s j = .emitted :=
    (hInv.holderIff j).mp h2
  have hij : i ≠ j := by
    intro h
    subst h
    rcases hjActive with h | h <;> rw [h1] at h <;> simp at h
  have hiq : i ∉ s.queue := by
    intro hmem
    have := (hInv.queueIff i).mp hmem
    rw [h1] at this
    simp at this
  constructor
  case holderIff =>
    intro k
    rw [(stReqQueued_fields s i).1, lsPhase_stReqQueued]
    by_cases hk : k = i
    · subst hk
      rw [h2]
      simp only [if_pos rfl]
      constructor
      · intro h
        exact absurd (Option.some_inj.mp h).symm hij
      · intro h; rcases h with h | h <;> simp at h
    · simp only [if_neg hk]; exact hInv.holderIff k
  case queueIff =>
    intro k
    rw [(stReqQueued_fields s i).2.1, lsPhase_stReqQueued]
    by_cases hk : k = i
    · subst hk; simp
    · simp only [if_neg hk, List.mem_append, List.mem_singleton, hk,
        or_false]
      exact hInv.queueIff k
  case queueNodup =>
    rw [(stReqQueued_fields s i).2.1]
    rw [List.nodup_append]
    refine ⟨hInv.queueNodup, List.nodup_singleton i, ?_⟩
    intro a ha hai
    rw [List.mem_singleton] at hai
    exact hiq (hai ▸ ha)
  case queueNeedsHolder =>
    rw [(stReqQueued_fields s i).1, h2]
    intro _
    simp
  case reqMem =>
    intro k
    rw [(stReqQueued_fields s i).2.2, lsPhase_stReqQueued]
    by_cases hk : k = i
    · subst hk; simp
    · simp only [if_neg hk, List.mem_append, List.mem_singleton,
        LockEv.request.injEq, hk, or_false]
      exact hInv.reqMem k
  case emitMem =>
    intro k
    rw [(stReqQueued_fields s i).2.2, lsPhase_stReqQueued]
    have hme : (LockEv.emit k ∈ s.trace ++ [LockEv.request i]) =
        (LockEv.emit k ∈ s.trace) := by simp
    rw [hme]
    by_cases hk : k = i
    · subst hk
      simp only [if_pos rfl]
      rw [hInv.emitMem k, h1]
      simp
    · simp only [if_neg hk]; exact hInv.emitMem k
  case relMem =>
    intro k
    rw [(stReqQueued_fields s i).2.2, lsPhase_stReqQueued]
    have hme : (LockEv.release k ∈ s.trace ++ [LockEv.request i]) =
        (LockEv.release k ∈ s.trace) := by simp
    rw [hme]
    by_cases hk : k = i
    · subst hk
      simp only [if_pos rfl]
      rw [hInv.relMem k, h1]
      simp
    · simp only [if_neg hk]; exact hInv.relMem k
  case reqOnce =>
    intro k
    rw [(stReqQueued_fields s i).2.2, count_append_singleton]
    by_cases hk : LockEv.request k = LockEv.request i
    · have hki : k = i := by simpa [LockEv.request.injEq] using hk
      subst hki
      have hnm : LockEv.request k ∉ s.trace := by
        rw [hInv.reqMem k]; simp [h1]
      have hz : s.trace.count (LockEv.request k) = 0 :=
        List.count_eq_zero.mpr hnm
      simp [hz, hk]
    · simp [hk]
      exact hInv.reqOnce k
  case queuedAfterHolder =>
    intro a b ha hb
    rw [(stReqQueued_fields s i).1, h2] at hb
    have hbj : b = j := (Option.some_inj.mp hb).symm
    subst hbj
    rw [(stReqQueued_fields s i).2.2]
    rw [lsPhase_stReqQueued] at ha
    by_cases hai : a = i
    · subst hai
      have hjmem : LockEv.request b ∈ s.trace := by
        rw [hInv.reqMem b]
        intro hidle
        rcases hjActive with h | h <;> rw [hidle] at h <;> simp at h
      exact mem_pair_sublist_append hjmem
    · rw [if_neg hai] at ha
      exact pair_sublist_extend (hInv.queuedAfterHolder a b ha h2)
  case doneBeforeActive =>
    intro a b ha hb
    rw [(stReqQueued_fields s i).2.2]
    rw [lsPhase_stReqQueued] at ha hb
    by_cases hai : a = i
    · subst hai; simp at ha
    · rw [if_neg hai] at ha
      by_cases hbi : b = i
      · subst hbi; simp at hb
      · rw [if_neg hbi] at hb
        exact pair_sublist_extend (hInv.doneBeforeActive a b ha hb)
  case emitOrder =>
    intro a b hab hpair hbmem
    rw [(stReqQueued_fields s i).2.2] at hpair hbmem ⊢
    have hbmem2 : LockEv.emit b ∈ s.trace := by
      rcases List.mem_append.mp hbmem with h | h
      · exact h
      · simp at h
    rcases pair_sublist_append_singleton hpair with hp | ⟨hp1, _⟩
    · exact pair_sublist_extend (hInv.emitOrder a b hab hp hbmem2)
    · have hbi : b = i := by simpa [LockEv.request.injEq] using hp1
      subst hbi
      rw [hInv.emitMem b, h1] at hbmem2
      simp at hbmem2
  case altInv =>
    rw [(stReqQueued_fields s i).2.2, altOk_append, hInv.altInv]
    have hsame : emittedHolder (stReqQueued s i) = emittedHolder s := by
      have hii : lsPhase s i = Phase.idle := h1
      cases i <;>
        simp_all [emittedHolder, stReqQueued, lsSetPhase, lsPhase]
    rw [hsame]
    rfl

theorem stEmit_fields (s : LockSys) (i : Bool) :
    (stEmit s i).holder = s.holder ∧ (stEmit s i).queue = s.queue ∧
      (stEmit s i).trace = s.trace ++ [.emit i] :=
  ⟨rfl, rfl, rfl⟩

/-- Preservation of the invariant under an emit by the holder. -/
theorem lockInv_emit (s : LockSys) (i : Bool) (hInv : LockInv s)
    (h1 : lsPhase s i = .holding) : LockInv (stEmit s i) := by
  have hHold : s.holder = some i := (hInv.holderIff i).mpr (Or.inl h1)
  have hOnly : ∀ k, k ≠ i →
      ¬(lsPhase s k = .holding ∨ lsPhase s k = .emitted) := by
    intro k hk hact
    have := (hInv.holderIff k).mpr hact
    rw [hHold] at this
    exact hk (Option.some_inj.mp this).symm
  have hNoEmit : LockEv.emit i ∉ s.trace := by
    rw [hInv.emitMem i, h1]
    simp
  constructor
  case holderIff =>
    intro k
    rw [(stEmit_fields s i).1, lsPhase_stEmit, hHold]
    by_cases hk : k = i
    · subst hk; simp
    · simp only [if_neg hk]
      constructor
      · intro h; exact absurd (Option.some_inj.mp h).symm hk
      · intro h; exact absurd h (hOnly k hk)
  case queueIff =>
    intro k
    rw [(stEmit_fields s i).2.1, lsPhase_stEmit]
    by_cases hk : k = i
    · subst hk
      simp only [if_pos rfl]
      constructor
      · intro h
        have := (hInv.queueIff k).mp h
        rw [h1] at this
        simp at this
      · intro h; simp at h
    · simp only [if_neg hk]; exact hInv.queueIff k
  case queueNodup =>
    rw [(stEmit_fields s i).2.1]; exact hInv.queueNodup
  case queueNeedsHolder =>
    rw [(stEmit_fields s i).2.1, (stEmit_fields s i).1]
    exact hInv.queueNeedsHolder
  case reqMem =>
    intro k
    rw [(stEmit_fields s i).2.2, lsPhase_stEmit]
    have hme : (LockEv.request k ∈ s.trace ++ [LockEv.emit i]) =
        (LockEv.request k ∈ s.trace) := by simp
    rw [hme]
    by_cases hk : k = i
    · subst hk
      simp only [if_pos rfl]
      rw [hInv.reqMem k, h1]
      simp
    · simp only [if_neg hk]; exact hInv.reqMem k
  case emitMem =>
    intro k
    rw [(stEmit_fields s i).2.2, lsPhase_stEmit]
    by_cases hk : k = i
    · subst hk; simp
    · simp only [if_neg hk, List.mem_append, List.mem_singleton,
        LockEv.emit.injEq, hk, or_false]
      exact hInv.emitMem k
  case relMem =>
    intro k
    rw [(stEmit_fields s i).2.2, lsPhase_stEmit]
    have hme : (LockEv.release k ∈ s.trace ++ [LockEv.emit i]) =
        (LockEv.release k ∈ s.trace) := by simp
    rw [hme]
    by_cases hk : k = i
    · subst hk
      simp only [if_pos rfl]
      rw [hInv.relMem k, h1]
      simp
    · simp only [if_neg hk]; exact hInv.relMem k
  case reqOnce =>
    intro k
    rw [(stEmit_fields s i).2.2, count_append_singleton]
    simp only [reduceCtorEq, if_false]
    simpa using hInv.reqOnce k
  case queuedAfterHolder =>
    intro a b ha hb
    rw [(stEmit_fields s i).1] at hb
    rw [(stEmit_fields s i).2.2]
    rw [lsPhase_stEmit] at ha
    by_cases hai : a = i
    · subst hai; simp at ha
    · rw [if_neg hai] at ha
      exact pair_sublist_extend (hInv.queuedAfterHolder a b ha hb)
  case doneBeforeActive =>
    intro a b ha hb
    rw [(stEmit_fields s i).2.2]
    rw [lsPhase_stEmit] at ha hb
    by_cases hbi : b = i
    · subst hbi; simp at hb
    · rw [if_neg hbi] at hb
      by_cases hai : a = i
      · subst hai
        exact pair_sublist_extend (hInv.doneBeforeActive a b (Or.inl h1) hb)
      · rw [if_neg hai] at ha
        exact pair_sublist_extend (hInv.doneBeforeActive a b ha hb)
  case emitOrder =>
    intro a b hab hpair hbmem
    rw [(stEmit_fields s i).2.2] at hpair hbmem ⊢
    have hpair2 : List.Sublist [LockEv.request a, LockEv.request b]
        s.trace := by
      rcases pair_sublist_append_singleton hpair with hp | ⟨hp1, _⟩
      · exact hp
      · simp at hp1
    rcases List.mem_append.mp hbmem with hbm | hbm
    · exact pair_sublist_extend (hInv.emitOrder a b hab hpair2 hbm)
    · have hbi : b = i := by simpa using hbm
      subst hbi
      have hreqa : LockEv.request a ∈ s.trace :=
        hpair2.subset (List.mem_cons_self _ _)
      have hphase_a : lsPhase s a ≠ .idle := (hInv.reqMem a).mp hreqa
      have hnq : lsPhase s a ≠ .queued := by
        intro hq
        have hrev := hInv.queuedAfterHolder a b hq hHold
        rcases pair_sublist_antisymm hpair2 hrev
            (by simp [LockEv.request.injEq, hab]) with hc | hc
        · exact absurd (le_trans hc (hInv.reqOnce a)) (by omega)
        · exact absurd (le_trans hc (hInv.reqOnce b)) (by omega)
      have hdone : lsPhase s a = .done := by
        rcases hx : lsPhase s a with h | h | h | h | h
        · exact absurd hx hphase_a
        · exact absurd hx hnq
        · exact absurd (Or.inl hx) (hOnly a hab)
        · exact absurd (Or.inr hx) (hOnly a hab)
        · rfl
      have hemita : LockEv.emit a ∈ s.trace :=
        (hInv.emitMem a).mpr (Or.inr hdone)
      exact mem_pair_sublist_append hemita
  case altInv =>
    rw [(stEmit_fields s i).2.2, altOk_append, hInv.altInv]
    have hEH : emittedHolder s = none := by
      cases i with
      | false =>
        have h0f : s.p0 ≠ .emitted := by
          simp [lsPhase] at h1
          simp [h1]
        have h0t : s.p1 ≠ .emitted := by
          intro hp
          exact hOnly true (by simp) (Or.inr hp)
        simp [emittedHolder, h0f, h0t]
      | true =>
        have h0f : s.p0 ≠ .emitted := by
          intro hp
          exact hOnly false (by simp) (Or.inr hp)
        have h0t : s.p1 ≠ .emitted := by
          simp [lsPhase] at h1
          simp [h1]
        simp [emittedHolder, h0f, h0t]
    rw [hEH]
    have hEH2 : emittedHolder (stEmit s i) = some i := by
      cases i with
      | false =>
        have hp : (stEmit s false).p0 = .emitted := by
          simp [stEmit, lsSetPhase]
        simp [emittedHolder, hp]
      | true =>
        have hp0 : (stEmit s true).p0 = s.p0 := by
          simp [stEmit, lsSetPhase]
        have hp1 : (stEmit s true).p1 = .emitted := by
          simp [stEmit, lsSetPhase]
        have h0f : s.p0 ≠ .emitted := by
          intro hp
          exact hOnly false (by simp) (Or.inr hp)
        simp [emittedHolder, hp0, hp1, h0f]
    rw [hEH2]
    rfl

theorem stRelNone_fields (s : LockSys) (i : Bool) :
    (stRelNone s i).holder = none ∧ (stRelNone s i).queue = s.queue ∧
      (stRelNone s i).trace = s.trace ++ [.release i] :=
  ⟨rfl, rfl, rfl⟩

/-- The outstanding emitter is the holder. -/
theorem emittedHolder_of_emitted (s : LockSys) (i : Bool)
    (hInv : LockInv s) (h1 : lsPhase s i = .emitted) :
    emittedHolder s = some i := by
  have hHold : s.holder = some i := (hInv.holderIff i).mpr (Or.inr h1)
  have hOnly : ∀ k, k ≠ i → lsPhase s k ≠ .emitted := by
    intro k hk hact
    have := (hInv.holderIff k).mpr (Or.inr hact)
    rw [hHold] at this
    exact hk (Option.some_inj.mp this).symm
  cases i with
  | false =>
    have hp : s.p0 = .emitted := h1
    simp [emittedHolder, hp]
  | true =>
    have hp : s.p1 = .emitted := h1
    have hf : s.p0 ≠ .emitted := hOnly false (by simp)
    simp [emittedHolder, hp, hf]

/-- Preservation of the invariant under a release with an empty queue. -/
theorem lockInv_relNone (s : LockSys) (i : Bool) (hInv : LockInv s)
    (h1 : lsPhase s i = .emitted) (h2 : s.queue = []) :
    LockInv (stRelNone s i) := by
  have hHold : s.holder = some i := (hInv.holderIff i).mpr (Or.inr h1)
  have hOnly : ∀ k, k ≠ i →
      ¬(lsPhase s k = .holding ∨ lsPhase s k = .emitted) := by
    intro k hk hact
    have := (hInv.holderIff k).mpr hact
    rw [hHold] at this
    exact hk (Option.some_inj.mp this).symm
  have hNoRel : LockEv.release i ∉ s.trace := by
    rw [hInv.relMem i, h1]
    simp
  constructor
  case holderIff =>
    intro k
    rw [(stRelNone_fields s i).1, lsPhase_stRelNone]
    by_cases hk : k = i
    · subst hk; simp
    · simp only [if_neg hk]
      constructor
      · intro h; simp at h
      · intro h; exact absurd h (hOnly k hk)
  case queueIff =>
    intro k
    rw [(stRelNone_fields s i).2.1, lsPhase_stRelNone, h2]
    by_cases hk : k = i
    · subst hk; simp
    · simp only [if_neg hk, List.not_mem_nil, false_iff]
      intro hq
      have := (hInv.queueIff k).mpr hq
      rw [h2] at this
      simp at this
  case queueNodup =>
    rw [(stRelNone_fields s i).2.1, h2]; exact List.nodup_nil
  case queueNeedsHolder =>
    rw [(stRelNone_fields s i).2.1, h2]
    intro h; simp at h
  case reqMem =>
    intro k
    rw [(stRelNone_fields s i).2.2, lsPhase_stRelNone]
    have hme : (LockEv.request k ∈ s.trace ++ [LockEv.release i]) =
        (LockEv.request k ∈ s.trace) := by simp
    rw [hme]
    by_cases hk : k = i
    · subst hk
      simp only [if_pos rfl]
      rw [hInv.reqMem k, h1]
      simp
    · simp only [if_neg hk]; exact hInv.reqMem k
  case emitMem =>
    intro k
    rw [(stRelNone_fields s i).2.2, lsPhase_stRelNone]
    have hme : (LockEv.emit k ∈ s.trace ++ [LockEv.release i]) =
        (LockEv.emit k ∈ s.trace) := by simp
    rw [hme]
    by_cases hk : k = i
    · subst hk
      simp only [if_pos rfl]
      rw [hInv.emitMem k, h1]
      simp
    · simp only [if_neg hk]; exact hInv.emitMem k
  case relMem =>
    intro k
    rw [(stRelNone_fields s i).2.2, lsPhase_stRelNone]
    by_cases hk : k = i
    · subst hk; simp
    · simp only [if_neg hk, List.mem_append, List.mem_singleton,
        LockEv.release.injEq, hk, or_false]
      exact hInv.relMem k
  case reqOnce =>
    intro k
    rw [(stRelNone_fields s i).2.2, count_append_singleton]
    simp only [reduceCtorEq, if_false]
    simpa using hInv.reqOnce k
  case queuedAfterHolder =>
    intro a b _ hb
    rw [(stRelNone_fields s i).1] at hb
    simp at hb
  case doneBeforeActive =>
    intro a b ha _
    rw [lsPhase_stRelNone] at ha
    by_cases hai : a = i
    · subst hai; simp at ha
    · rw [if_neg hai] at ha
      exact absurd ha (hOnly a hai)
  case emitOrder =>
    intro a b hab hpair hbmem
    rw [(stRelNone_fields s i).2.2] at hpair hbmem ⊢
    have hbmem2 : LockEv.emit b ∈ s.trace := by
      rcases List.mem_append.mp hbmem with h | h
      · exact h
      · simp at h
    have hpair2 : List.Sublist [LockEv.request a, LockEv.request b]
        s.trace := by
      rcases pair_sublist_append_singleton hpair with hp | ⟨hp1, _⟩
      · exact hp
      · simp at hp1
    exact pair_sublist_extend (hInv.emitOrder a b hab hpair2 hbmem2)
  case altInv =>
    rw [(stRelNone_fields s i).2.2, altOk_append, hInv.altInv,
      emittedHolder_of_emitted s i hInv h1]
    have hEH2 : emittedHolder (stRelNone s i) = none := by
      cases i with
      | false =>
        have hp : (stRelNone s false).p0 = .done := by
          simp [stRelNone, lsSetPhase]
        have hq : (stRelNone s false).p1 = s.p1 := by
          simp [stRelNone, lsSetPhase]
        have hne : s.p1 ≠ .emitted := by
          intro hx
          exact hOnly true (by simp) (Or.inr hx)
        simp [emittedHolder, hp, hq, hne]
      | true =>
        have hp : (stRelNone s true).p1 = .done := by
          simp [stRelNone, lsSetPhase]
        have hq : (stRelNone s true).p0 = s.p0 := by
          simp [stRelNone, lsSetPhase]
        have hne : s.p0 ≠ .emitted := by
          intro hx
          exact hOnly false (by simp) (Or.inr hx)
        simp [emittedHolder, hp, hq, hne]
    rw [hEH2]
    simp [altOk]

theorem stRelWake_fields (s : LockSys) (i j : Bool) :
    (stRelWake s i j).holder = some j ∧
      (stRelWake s i j).queue = s.queue.tail ∧
      (stRelWake s i j).trace = s.trace ++ [.release i] :=
  ⟨rfl, rfl, rfl⟩

/-- Preservation of the invariant under a release that wakes the queue
head. -/
theorem lockInv_relWake (s : LockSys) (i j : Bool) (rest : List Bool)
    (hInv : LockInv s) (h1 : lsPhase s i = .emitted)
    (h2 : s.queue = j :: rest) : LockInv (stRelWake s i j) := by
  have hHold : s.holder = some i := (hInv.holderIff i).mpr (Or.inr h1)
  have hOnly : ∀ k, k ≠ i →
      ¬(lsPhase s k = .holding ∨ lsPhase s k = .emitted) := by
    intro k hk hact
    have := (hInv.holderIff k).mpr hact
    rw [hHold] at this
    exact hk (Option.some_inj.mp this).symm
  have hjq : lsPhase s j = .queued := by
    apply (hInv.queueIff j).mp
    rw [h2]
    exact List.mem_cons_self _ _
  have hij : i ≠ j := by
    intro h
    rw [h, hjq] at h1
    simp at h1
  have hrest : rest = [] := by
    cases rest with
    | nil => rfl
    | cons k ks =>
      have hkq : lsPhase s k = .queued := by
        apply (hInv.queueIff k).mp
        rw [h2]
        exact List.mem_cons_of_mem _ (List.mem_cons_self _ _)
      have hkj : k ≠ j := by
        intro h
        subst h
        have := hInv.queueNodup
        rw [h2] at this
        rcases List.nodup_cons.mp this with ⟨hnm, _⟩
        exact hnm (List.mem_cons_self _ _)
      have hki : k ≠ i := by
        intro h
        rw [h, h1] at hkq
        simp at hkq
      cases i <;> cases j <;> cases k <;> simp_all
  constructor
  case holderIff =>
    intro k
    rw [(stRelWake_fields s i j).1, lsPhase_stRelWake]
    by_cases hkj : k = j
    · subst hkj; simp
    · simp only [if_neg hkj]
      constructor
      · intro h
        exact absurd (Option.some_inj.mp h).symm hkj
      · intro h
        by_cases hki : k = i
        · rw [if_pos hki] at h
          rcases h with h | h <;> simp at h
        · rw [if_neg hki] at h
          exact absurd h (hOnly k hki)
  case queueIff =>
    intro k
    rw [(stRelWake_fields s i j).2.1, h2, hrest, lsPhase_stRelWake]
    simp only [List.tail_cons, List.not_mem_nil, false_iff]
    by_cases hkj : k = j
    · subst hkj; simp
    · rw [if_neg hkj]
      by_cases hki : k = i
      · rw [if_pos hki]; simp
      · rw [if_neg hki]
        intro hq
        have hmem := (hInv.queueIff k).mpr hq
        rw [h2, hrest] at hmem
        simp [hkj] at hmem
  case queueNodup =>
    rw [(stRelWake_fields s i j).2.1, h2, hrest]
    simp
  case queueNeedsHolder =>
    rw [(stRelWake_fields s i j).1]
    intro _
    simp
  case reqMem =>
    intro k
    rw [(stRelWake_fields s i j).2.2, lsPhase_stRelWake]
    have hme : (LockEv.request k ∈ s.trace ++ [LockEv.release i]) =
        (LockEv.request k ∈ s.trace) := by simp
    rw [hme]
    by_cases hkj : k = j
    · subst hkj
      simp only [if_pos rfl]
      rw [hInv.reqMem k, hjq]
      simp
    · rw [if_neg hkj]
      by_cases hki : k = i
      · subst hki
        simp only [if_pos rfl]
        rw [hInv.reqMem k, h1]
        simp
      · rw [if_neg hki]; exact hInv.reqMem k
  case emitMem =>
    intro k
    rw [(stRelWake_fields s i j).2.2, lsPhase_stRelWake]
    have hme : (LockEv.emit k ∈ s.trace ++ [LockEv.release i]) =
        (LockEv.emit k ∈ s.trace) := by simp
    rw [hme]
    by_cases hkj : k = j
    · subst hkj
      simp only [if_pos rfl]
      rw [hInv.emitMem k, hjq]
      simp
    · rw [if_neg hkj]
      by_cases hki : k = i
      · subst hki
        simp only [if_pos rfl]
        rw [hInv.emitMem k, h1]
        simp
      · rw [if_neg hki]; exact hInv.emitMem k
  case relMem =>
    intro k
    rw [(stRelWake_fields s i j).2.2, lsPhase_stRelWake]
    by_cases hki : k = i
    · subst hki
      rw [if_neg hij]
      simp
    · have hme : (LockEv.release k ∈ s.trace ++ [LockEv.release i]) =
          (LockEv.release k ∈ s.trace) := by
        simp [LockEv.release.injEq, hki]
      rw [hme]
      by_cases hkj : k = j
      · subst hkj
        simp only [if_pos rfl]
        rw [hInv.relMem k, hjq]
        simp
      · rw [if_neg hkj, if_neg hki]
        exact hInv.relMem k
  case reqOnce =>
    intro k
    rw [(stRelWake_fields s i j).2.2, count_append_singleton]
    simp only [reduceCtorEq, if_false]
    simpa using hInv.reqOnce k
  case queuedAfterHolder =>
    intro a b ha _
    rw [lsPhase_stRelWake] at ha
    by_cases haj : a = j
    · rw [if_pos haj] at ha; simp at ha
    · rw [if_neg haj] at ha
      by_cases hai : a = i
      · rw [if_pos hai] at ha; simp at ha
      · rw [if_neg hai] at ha
        have hmem := (hInv.queueIff a).mpr ha
        rw [h2, hrest] at hmem
        simp [haj] at hmem
  case doneBeforeActive =>
    intro a b ha hb
    rw [(stRelWake_fields s i j).2.2]
    rw [lsPhase_stRelWake] at ha hb
    have haj : a = j := by
      by_cases h : a = j
      · exact h
      · rw [if_neg h] at ha
        by_cases h3 : a = i
        · rw [if_pos h3] at ha
          rcases ha with h4 | h4 <;> simp at h4
        · rw [if_neg h3] at ha
          exact absurd ha (hOnly a h3)
    by_cases hbj : b = j
    · rw [if_pos hbj] at hb; simp at hb
    · rw [if_neg hbj] at hb
      by_cases hbi : b = i
      · rw [hbi, haj]
        exact pair_sublist_extend (hInv.queuedAfterHolder j i hjq hHold)
      · rw [if_neg hbi] at hb
        have : b = i := by
          cases i <;> cases j <;> cases b <;> simp_all
        exact absurd this hbi
  case emitOrder =>
    intro a b hab hpair hbmem
    rw [(stRelWake_fields s i j).2.2] at hpair hbmem ⊢
    have hbmem2 : LockEv.emit b ∈ s.trace := by
      rcases List.mem_append.mp hbmem with h | h
      · exact h
      · simp at h
    have hpair2 : List.Sublist [LockEv.request a, LockEv.request b]
        s.trace := by
      rcases pair_sublist_append_singleton hpair with hp | ⟨hp1, _⟩
      · exact hp
      · simp at hp1
    exact pair_sublist_extend (hInv.emitOrder a b hab hpair2 hbmem2)
  case altInv =>
    rw [(stRelWake_fields s i j).2.2, altOk_append, hInv.altInv,
      emittedHolder_of_emitted s i hInv h1]
    have hEH2 : emittedHolder (stRelWake s i j) = none := by
      have hpj : lsPhase (stRelWake s i j) j = .holding := by
        rw [lsPhase_stRelWake]; simp
      have hpi : lsPhase (stRelWake s i j) i = .done := by
        rw [lsPhase_stRelWake]
        rw [if_neg (fun h => hij h)]
        simp
      cases i <;> cases j <;>
        simp_all [emittedHolder, lsPhase]
    rw [hEH2]
    simp [altOk]

/-- The invariant is preserved by every step. -/
theorem lockInv_step (s s' : LockSys) (hInv : LockInv s)
    (hstep : LockStep s s') : LockInv s' := by
  cases hstep with
  | reqFree i h1 h2 => exact lockInv_reqFree s i hInv h1 h2
  | reqQueued i j h1 h2 => exact lockInv_reqQueued s i j hInv h1 h2
  | emit i h => exact lockInv_emit s i hInv h
  | relNone i h1 h2 => exact lockInv_relNone s i hInv h1 h2
  | relWake i j rest h1 h2 => exact lockInv_relWake s i j rest hInv h1 h2

/-- The invariant holds in every reachable state. -/
theorem lockInv_reachable (s : LockSys) (h : LockReachable s) :
    LockInv s := by
  induction h with
  | refl => exact lockInv_init
  | tail _ hstep ih => exact lockInv_step _ _ ih hstep

/-- A trace whose emit/release scan succeeds has a release of the first
emitter between any two emits. -/
theorem altOk_some_mutex (tr : List LockEv) (w : Option Bool)
    (h : altOk tr none = some w) (x y z : List LockEv) (i j : Bool)
    (hdec : tr = x ++ LockEv.emit i :: (y ++ LockEv.emit j :: z)) :
    LockEv.release i ∈ y := by
  rw [hdec, altOk_append] at h
  rcases hx : altOk x none with _ | c0
  · rw [hx] at h; simp at h
  · rw [hx] at h
    cases c0 with
    | some k => simp [altOk] at h
    | none =>
      simp only [altOk] at h
      rw [altOk_append] at h
      rcases hy : altOk y (some i) with _ | c1
      · rw [hy] at h; simp at h
      · rw [hy] at h
        cases c1 with
        | some k => simp [altOk] at h
        | none => exact altOk_release_mem y i hy

/-! ### Helper lemmas for the event endpoint -/

/-- Deleting a key removes it from lookup. -/
theorem lookup_eraseRef_self (r : String) (l : List (String × Nat)) :
    (eraseRef r l).lookup r = none := by
  induction l with
  | nil => rfl
  | cons p t ih =>
    unfold eraseRef at ih ⊢
    by_cases h : p.1 = r
    · simp [List.filter, h, ih]
    · have hb : (p.1 != r) = true := by simpa using h
      simp only [List.filter, hb]
      rw [List.lookup_cons]
      have hrp : (r == p.1) = false := by
        simp
        exact fun he => h he.symm
      simp [hrp, ih]

/-- Deleting one key leaves every other lookup unchanged. -/
theorem lookup_eraseRef_other (r r2 : String) (l : List (String × Nat))
    (h : r2 ≠ r) : (eraseRef r l).lookup r2 = l.lookup r2 := by
  induction l with
  | nil => rfl
  | cons p t ih =>
    unfold eraseRef at ih ⊢
    by_cases hp : p.1 = r
    · have hb : (p.1 != r) = false := by simp [hp]
      simp only [List.filter, hb]
      rw [List.lookup_cons]
      have hrp : (r2 == p.1) = false := by
        simp [hp]
        exact h
      simp [hrp, ih]
    · have hb : (p.1 != r) = true := by simpa using hp
      simp only [List.filter, hb]
      rw [List.lookup_cons, List.lookup_cons]
      by_cases h2 : r2 = p.1
      · simp [h2]
      · have hrp : (r2 == p.1) = false := by simpa using h2
        simp [hrp, ih]

/-- The dedicated-hook chain contributes at most one hook-call effect. -/
theorem dispatchSpecific_trace_shape (hooks : EventHooks)
    (event_name : String) (b : Bool) :
    (dispatchSpecific hooks event_name b).1 = [] ∨
      ∃ nm, (dispatchSpecific hooks event_name b).1 =
        [Effect.callHook nm] := by
  unfold dispatchSpecific
  split_ifs <;> first | exact Or.inl rfl | exact Or.inr ⟨_, rfl⟩

/-- The frame's reference does not key any pending future. -/
def refUnmatched (futs : List (String × Nat)) : Option String → Bool
  | some r => (futs.lookup r).isNone
  | none => true

/-! ## Claim theorems -/

/-- Claim C1 (code-bug evidence): in the `src/` code, supplying a future
to `override_character_action` or `modal` registers nothing - the future
is bound to `send_message`'s `timeout` parameter (third positional
argument), the reference→future map stays empty, and a later
simulation-event frame bearing the command's reference resolves nothing
(the handler's trace is empty: no `resolveFuture` effect ever occurs). -/
theorem c1_override_future_misbound :
    (override_character_action [] "wyatt_cooper" (some 7) "ref1").eventFutures
      = [] ∧
    (override_character_action [] "wyatt_cooper" (some 7)
      "ref1").ackTimeoutArg = PyArg.fut 7 ∧
    (handle_simulation_event {}
      (override_character_action [] "wyatt_cooper" (some 7)
        "ref1").eventFutures
      { typ := "simulation-event"
        data := { event_name := some "on-action-complete"
                  event_data := some [("persona_guid", "wyatt_cooper")] }
        reference := some "ref1" }).trace = [] ∧
    (modal [] (some 9) "ref2").eventFutures = [] ∧
    (modal [] (some 9) "ref2").ackTimeoutArg = PyArg.fut 9 :=
  ⟨rfl, rfl, rfl, rfl, rfl⟩

/-- Counterexample to claim C2 as stated: with an unresponsive transport
(`ackAt = none`) the default-timeout call does raise `TimeoutError`, but
the emit lock is NOT released on that path before the call returns. -/
theorem c2_timeout_releases_lock_counterexample :
    ¬(((send_message { ackAt := none } 5).raised = some "TimeoutError") →
      (send_message { ackAt := none } 5).lockHeldAfter = false) := by
  decide

/-- Claim C2 amended: when the acknowledgement does not arrive within the
timeout, `send_message` raises a timeout error but leaves the emit lock
held at the moment it raises; the lock is only ever released by a late
acknowledgement callback (never, on a fully unresponsive transport), so
subsequent callers can block indefinitely. -/
theorem c2_timeout_leaves_lock_held (env : SendEnv) (t : Nat)
    (hsid : env.sidPresent = true) (hemit : env.emitOk = true) :
    (env.ackAt = none →
      send_message env t =
        { returnedOk := false, raised := some "TimeoutError"
          lockHeldAfter := true, lockEverReleased := false }) ∧
    (∀ ta, env.ackAt = some ta → t ≤ ta →
      send_message env t =
        { returnedOk := false, raised := some "TimeoutError"
          lockHeldAfter := true, lockEverReleased := true }) := by
  constructor
  · intro hack
    simp [send_message, hsid, hemit, hack]
  · intro ta hack hta
    simp [send_message, hsid, hemit, hack, Nat.not_lt.mpr hta]

/-- Witness for the amended claim C2 at a concrete environment. -/
theorem c2_timeout_leaves_lock_held_witness :
    ({ ackAt := none } : SendEnv).sidPresent = true ∧
    send_message { ackAt := none } 5 =
      { returnedOk := false, raised := some "TimeoutError"
        lockHeldAfter := true, lockEverReleased := false } :=
  ⟨rfl, (c2_timeout_leaves_lock_held { ackAt := none } 5 rfl rfl).1 rfl⟩

/-- Counterexample to claim C6 as stated: after a resume,
`set_start_date` still performs the wire round-trip (it emits the
`set-start-date` simulation command) and reports no local precondition
error. -/
theorem c6_set_start_date_counterexample :
    (api_resume {}).state.resumed = true ∧
    ¬((set_start_date (api_resume {}).state "1890-01-01T08:00:00").emitted
        = [] ∧
      (set_start_date (api_resume {}).state
        "1890-01-01T08:00:00").errorReported.isSome = true) := by
  decide

/-- Claim C6 amended: `set_start_date` consults no tracked simulation
state - in every state, after a resume or not, it emits the
`set-start-date` command over the wire, records the date, and reports no
local precondition error (any error arrives in the runtime's wire
response instead). -/
theorem c6_set_start_date_always_round_trips (s : ApiState) (d : String) :
    set_start_date s d =
      { state := { s with startDate := some d }
        emitted := [Effect.simCmd "set-start-date"]
        errorReported := none } :=
  rfl

/-- The error message states one of the three causes the claim lists. -/
def statesListedCause (e : String) : Bool :=
  strContains e "Error decoding JSON" ||
    strContains e "Error validating request" ||
    strContains e "Unknown message type"

/-- Counterexample to claim C3 as stated: a frame with a missing `type`
yields the error envelope `"Error processing request: Message is missing
a type."`, which states none of the three causes the claim lists. -/
theorem c3_missing_type_counterexample :
    (handle_message (bridgeRoutes {} false {} [])
        (.noType (some "r1") "traceback")).output =
      some (errEnvelope
        "Error processing request: Message is missing a type.") ∧
    statesListedCause
      "Error processing request: Message is missing a type." = false :=
  ⟨rfl, by decide⟩

/-- Claim C3 amended: `handle_message` never raises past the boundary:
invalid JSON yields an `"Error decoding JSON: ..."` envelope, a missing
type yields `"Error processing request: Message is missing a type."`, an
unknown type yields `"Error processing request: Unknown message type:
..."`, and a validation failure yields `"Error validating request:
..."`; each envelope is built from the summary text alone, independent
of the stack trace (which is only logged). -/
theorem c3_error_envelope_taxonomy (routes : List (String × Endpoint)) :
    (∀ d st, handle_message routes (.badJson d st) =
      { output := some (errEnvelope ("Error decoding JSON: " ++ d)) }) ∧
    (∀ r st, handle_message routes (.noType r st) =
      { output := some (errEnvelope
          "Error processing request: Message is missing a type.") }) ∧
    (∀ msg structOk vd st, routes.lookup msg.typ = none →
      handle_message routes (.frame msg structOk vd st) =
        { output := some (errEnvelope
            ("Error processing request: Unknown message type: "
              ++ msg.typ)) }) ∧
    (∀ msg ep vd st, routes.lookup msg.typ = some ep →
      handle_message routes (.frame msg false vd st) =
        { output := some (errEnvelope
            ("Error validating request: " ++ vd)) }) := by
  refine ⟨fun d st => rfl, fun r st => rfl, ?_, ?_⟩
  · intro msg structOk vd st hl
    simp [handle_message, hl]
  · intro msg ep vd st hl
    simp [handle_message, hl]

/-- Witness for the amended claim C3: an unknown-type frame against the
bridge's routes. -/
theorem c3_error_envelope_taxonomy_witness :
    (bridgeRoutes {} false {} []).lookup "bogus-type" = none ∧
    handle_message (bridgeRoutes {} false {} [])
        (.frame { typ := "bogus-type" } true "" "") =
      { output := some (errEnvelope
          "Error processing request: Unknown message type: bogus-type") } := by
  refine ⟨by decide, ?_⟩
  have h := (c3_error_envelope_taxonomy (bridgeRoutes {} false {} [])).2.2.1
    { typ := "bogus-type" } true "" "" (by decide)
  rw [h]
  rfl

/-- The request that exhibits the missing reference echo on the router's
error path: a well-formed `simulation-ready` frame carrying reference
`"abc"` whose handler raises (wrong runtime version). -/
def c7msg : GenericMessage :=
  { typ := "simulation-ready"
    data := { start_date := some "1880-01-01T08:00:00"
              runtime_version := some "9.9.9" }
    reference := some "abc" }

/-- Counterexample to claim C7 as stated: the reply produced on the
router's error path is an `error` envelope with `reference = none`, not
the request's reference. -/
theorem c7_error_reply_reference_counterexample :
    ∃ env : GenericMessage,
      (handle_message (bridgeRoutes {} false {} [])
        (.frame c7msg true "" "")).output = some env ∧
      env.typ = "error" ∧ env.reference = none ∧
      c7msg.reference = some "abc" :=
  ⟨_, rfl, rfl, rfl, rfl⟩

/-- Claim C7 amended: replies produced by successful handling of a
`simulation-event` frame echo the request's reference; every envelope the
router emits on its error path is an `error` envelope carrying
`reference = none`. -/
theorem c7_reference_echo (hooks : EventHooks)
    (futs : List (String × Nat)) (routes : List (String × Endpoint))
    (msg : GenericMessage) :
    (∀ vd st, routes.lookup msg.typ = some (.simEvent hooks futs) →
      ∃ resp, (handle_message routes (.frame msg true vd st)).output =
          some resp ∧
        resp.reference = msg.reference) ∧
    (∀ inb env, (handle_message routes inb).output = some env →
      env.typ = "error" → env.reference = none) := by
  constructor
  · intro vd st hl
    refine ⟨(handle_simulation_event hooks futs msg).response, ?_, rfl⟩
    simp [handle_message, hl, runEndpoint]
  · intro inb env hout htyp
    cases inb with
    | badJson d st =>
      simp only [handle_message] at hout
      have henv := (Option.some_inj.mp hout).symm
      subst henv
      rfl
    | noType r st =>
      simp only [handle_message] at hout
      have henv := (Option.some_inj.mp hout).symm
      subst henv
      rfl
    | frame msg2 structOk vd st =>
      simp only [handle_message] at hout
      rcases hl : routes.lookup msg2.typ with _ | ep
      · rw [hl] at hout
        simp at hout
        have henv := hout.symm
        subst henv
        rfl
      · rw [hl] at hout
        cases structOk with
        | false =>
          simp at hout
          have henv := hout.symm
          subst henv
          rfl
        | true =>
          simp only [Bool.not_true, Bool.false_eq_true, if_false,
            if_neg] at hout
          rcases hr : (runEndpoint ep msg2).raised with _ | e
          · rw [hr] at hout
            simp at hout
            cases ep with
            | ready cfg =>
              have : (runEndpoint (.ready cfg) msg2).response = none := rfl
              rw [this] at hout
              simp at hout
            | tick hasTick =>
              have : (runEndpoint (.tick hasTick) msg2).response = none := by
                cases hct : msg2.data.current_time <;>
                  simp [runEndpoint, hct]
              rw [this] at hout
              simp at hout
            | simEvent hooks2 futs2 =>
              have : (runEndpoint (.simEvent hooks2 futs2) msg2).response =
                  some (handle_simulation_event hooks2 futs2 msg2).response :=
                rfl
              rw [this] at hout
              simp at hout
              rw [← hout] at htyp
              simp [handle_simulation_event] at htyp
            | simError =>
              have : (runEndpoint .simError msg2).response = none := rfl
              rw [this] at hout
              simp at hout
          · rw [hr] at hout
            simp at hout
            have henv := hout.symm
            subst henv
            rfl

/-- Witness for the amended claim C7: a `simulation-event` frame with
reference `"r9"` gets a reply bearing the same reference. -/
theorem c7_reference_echo_witness :
    ∃ resp, (handle_message (bridgeRoutes {} false {} [])
        (.frame { typ := "simulation-event", reference := some "r9" }
          true "" "")).output = some resp ∧
      resp.reference =
        ({ typ := "simulation-event", reference := some "r9" } :
          GenericMessage).reference :=
  (c7_reference_echo {} [] (bridgeRoutes {} false {} [])
    { typ := "simulation-event", reference := some "r9" }).1 "" ""
    (by decide)

/-- No future resolution comes out of the dedicated-hook chain. -/
theorem resolveFuture_not_mem_dispatch (hooks : EventHooks)
    (event_name : String) (b : Bool) (g : Nat)
    (pl : List (String × String)) :
    Effect.resolveFuture g pl ∉ (dispatchSpecific hooks event_name b).1 := by
  rcases dispatchSpecific_trace_shape hooks event_name b with h | ⟨nm, h⟩ <;>
    simp [h]

/-- No generic-hook call comes out of the dedicated-hook chain. -/
theorem callOnEvent_not_mem_dispatch (hooks : EventHooks)
    (event_name : String) (b : Bool) :
    Effect.callOnEvent ∉ (dispatchSpecific hooks event_name b).1 := by
  rcases dispatchSpecific_trace_shape hooks event_name b with h | ⟨nm, h⟩ <;>
    simp [h]

/-- Claim C5 amended: layered dispatch of a simulation-event frame.
(1) A reference matching a pending future resolves exactly that future
with the event's `event_data`, removes its entry (leaving every other
entry untouched), and invokes no dedicated hook for that frame.
(2) Otherwise each specially-named dedicated hook fires when it is
registered, the `event_name` matches, AND the `event_data` is non-empty
(the non-emptiness condition is what the claim as stated omits), with an
`on_action_complete` replacement action folded into the response data.
(3) The generic `on_event` hook, when registered, always runs last,
whether or not a future or dedicated hook handled the frame. -/
theorem c5_layered_event_dispatch (hooks : EventHooks)
    (futures : List (String × Nat)) (msg : GenericMessage) :
    (∀ r fid, msg.reference = some r → futures.lookup r = some fid →
      (handle_simulation_event hooks futures msg).trace =
        Effect.resolveFuture fid (msg.data.event_data.getD []) ::
          (if hooks.onEvent then [Effect.callOnEvent] else []) ∧
      (handle_simulation_event hooks futures msg).eventFutures.lookup r
        = none ∧
      (∀ r2, r2 ≠ r →
        (handle_simulation_event hooks futures msg).eventFutures.lookup r2
          = futures.lookup r2)) ∧
    (∀ a, refUnmatched futures msg.reference = true →
      hooks.onActionComplete = some a →
      msg.data.event_name.getD "" = "on-action-complete" →
      msg.data.event_data.getD [] ≠ [] →
      Effect.callHook "on_action_complete" ∈
        (handle_simulation_event hooks futures msg).trace ∧
      (handle_simulation_event hooks futures msg).response.data.action
        = a) ∧
    (refUnmatched futures msg.reference = true →
      hooks.onCharacterFocused = true →
      msg.data.event_name.getD "" = "on-character-focused" →
      msg.data.event_data.getD [] ≠ [] →
      Effect.callHook "on_character_focused" ∈
        (handle_simulation_event hooks futures msg).trace) ∧
    (refUnmatched futures msg.reference = true →
      hooks.onCharacterUnfocused = true →
      msg.data.event_name.getD "" = "on-character-unfocused" →
      msg.data.event_data.getD [] ≠ [] →
      Effect.callHook "on_character_unfocused" ∈
        (handle_simulation_event hooks futures msg).trace) ∧
    (refUnmatched futures msg.reference = true →
      hooks.onSimObjectSelected = true →
      msg.data.event_name.getD "" = "on-sim-object-selected" →
      msg.data.event_data.getD [] ≠ [] →
      Effect.callHook "on_sim_object_selected" ∈
        (handle_simulation_event hooks futures msg).trace) ∧
    (hooks.onEvent = true →
      (handle_simulation_event hooks futures msg).trace.getLast? =
        some Effect.callOnEvent) ∧
    (hooks.onEvent = false →
      Effect.callOnEvent ∉ (handle_simulation_event hooks futures msg).trace)
    := by
  refine ⟨?_, ?_, ?_, ?_, ?_, ?_, ?_⟩
  · intro r fid href hlk
    have hfut : (handle_simulation_event hooks futures msg).eventFutures =
        eraseRef r futures := by
      simp [handle_simulation_event, href, hlk]
    refine ⟨?_, ?_, ?_⟩
    · simp [handle_simulation_event, href, hlk]
    · rw [hfut]
      exact lookup_eraseRef_self r futures
    · intro r2 hr2
      rw [hfut]
      exact lookup_eraseRef_other r r2 futures hr2
  · intro a hun hreg hname hdata
    have hd : (msg.data.event_data.getD [] != []) = true := by
      simpa using hdata
    constructor
    · cases href : msg.reference with
      | none =>
        simp [handle_simulation_event, href, dispatchSpecific, hname, hreg,
          hd]
      | some r =>
        rw [href] at hun
        have hlk : futures.lookup r = none := by
          simpa [refUnmatched, Option.isNone_iff_eq_none] using hun
        simp [handle_simulation_event, href, hlk, dispatchSpecific, hname,
          hreg, hd]
    · cases href : msg.reference with
      | none =>
        simp [handle_simulation_event, href, dispatchSpecific, hname, hreg,
          hd]
      | some r =>
        rw [href] at hun
        have hlk : futures.lookup r = none := by
          simpa [refUnmatched, Option.isNone_iff_eq_none] using hun
        simp [handle_simulation_event, href, hlk, dispatchSpecific, hname,
          hreg, hd]
  · intro hun hreg hname hdata
    have hd : (msg.data.event_data.getD [] != []) = true := by
      simpa using hdata
    cases href : msg.reference with
    | none =>
      simp [handle_simulation_event, href, dispatchSpecific, hname, hreg, hd]
    | some r =>
      rw [href] at hun
      have hlk : futures.lookup r = none := by
        simpa [refUnmatched, Option.isNone_iff_eq_none] using hun
      simp [handle_simulation_event, href, hlk, dispatchSpecific, hname,
        hreg, hd]
  · intro hun hreg hname hdata
    have hd : (msg.data.event_data.getD [] != []) = true := by
      simpa using hdata
    cases href : msg.reference with
    | none =>
      simp [handle_simulation_event, href, dispatchSpecific, hname, hreg, hd]
    | some r =>
      rw [href] at hun
      have hlk : futures.lookup r = none := by
        simpa [refUnmatched, Option.isNone_iff_eq_none] using hun
      simp [handle_simulation_event, href, hlk, dispatchSpecific, hname,
        hreg, hd]
  · intro hun hreg hname hdata
    have hd : (msg.data.event_data.getD [] != []) = true := by
      simpa using hdata
    cases href : msg.reference with
    | none =>
      simp [handle_simulation_event, href, dispatchSpecific, hname, hreg, hd]
    | some r =>
      rw [href] at hun
      have hlk : futures.lookup r = none := by
        simpa [refUnmatched, Option.isNone_iff_eq_none] using hun
      simp [handle_simulation_event, href, hlk, dispatchSpecific, hname,
        hreg, hd]
  · intro he
    cases href : msg.reference with
    | none =>
      simp only [handle_simulation_event, href, he, if_true]
      exact List.getLast?_concat _
    | some r =>
      cases hlk : futures.lookup r with
      | none =>
        simp only [handle_simulation_event, href, hlk, he, if_true]
        exact List.getLast?_concat _
      | some fid =>
        simp only [handle_simulation_event, href, hlk, he, if_true]
        exact List.getLast?_concat _
  · intro he
    cases href : msg.reference with
    | none =>
      simp only [handle_simulation_event, href, he, Bool.false_eq_true,
        if_false, List.append_nil]
      exact callOnEvent_not_mem_dispatch hooks _ _
    | some r =>
      cases hlk : futures.lookup r with
      | none =>
        simp only [handle_simulation_event, href, hlk, he,
          Bool.false_eq_true, if_false, List.append_nil]
        exact callOnEvent_not_mem_dispatch hooks _ _
      | some fid =>
        simp only [handle_simulation_event, href, hlk, he,
          Bool.false_eq_true, if_false, List.append_nil]
        simp

/-- Witness for the amended claim C5: a matching reference resolves the
pending future and the generic hook still runs last. -/
theorem c5_layered_event_dispatch_witness :
    (handle_simulation_event { onEvent := true } [("rA", 5)]
      { typ := "simulation-event"
        data := { event_data := some [("k", "v")] }
        reference := some "rA" }).trace =
      Effect.resolveFuture 5 [("k", "v")] ::
        (if ({ onEvent := true } : EventHooks).onEvent then
          [Effect.callOnEvent] else []) :=
  ((c5_layered_event_dispatch { onEvent := true } [("rA", 5)]
    { typ := "simulation-event"
      data := { event_data := some [("k", "v")] }
      reference := some "rA" }).1 "rA" 5 rfl (by decide)).1

/-- The hook configuration and frame of the C5 counterexample: the
`on_action_complete` hook is registered, the event is named
`on-action-complete`, the reference matches no future, but `event_data`
is empty. -/
def c5hooks : EventHooks := { onActionComplete := some none }

/-- The simulation-event frame of the C5 counterexample. -/
def c5msg : GenericMessage :=
  { typ := "simulation-event"
    data := { event_name := some "on-action-complete"
              event_data := some [] }
    reference := none }

/-- Counterexample to claim C5 as stated: with an empty `event_data` the
registered dedicated hook is NOT invoked, though the claim as stated
requires it. -/
theorem c5_empty_event_data_counterexample :
    c5hooks.onActionComplete.isSome = true ∧
    c5msg.data.event_name = some "on-action-complete" ∧
    refUnmatched [] c5msg.reference = true ∧
    Effect.callHook "on_action_complete" ∉
      (handle_simulation_event c5hooks [] c5msg).trace := by
  refine ⟨rfl, rfl, rfl, ?_⟩
  decide

/-- Claim C9: a Strategy-B reference is consumed by at most one
resolution.  The first delivery resolves the future and removes its map
entry; a duplicate delivery of the same frame is then a no-op on the
future machinery: the map is unchanged, no `resolveFuture` effect occurs,
and (the handler being a total function) no exception is raised. -/
theorem c9_duplicate_delivery_noop (hooks : EventHooks)
    (futures : List (String × Nat)) (msg : GenericMessage) (r : String)
    (fid : Nat) (h1 : msg.reference = some r)
    (h2 : futures.lookup r = some fid) :
    ((handle_simulation_event hooks futures msg).eventFutures.lookup r
      = none) ∧
    (handle_simulation_event hooks
        (handle_simulation_event hooks futures msg).eventFutures
        msg).eventFutures =
      (handle_simulation_event hooks futures msg).eventFutures ∧
    (∀ g pl, Effect.resolveFuture g pl ∉
      (handle_simulation_event hooks
        (handle_simulation_event hooks futures msg).eventFutures
        msg).trace) := by
  have hfut1 : (handle_simulation_event hooks futures msg).eventFutures =
      eraseRef r futures := by
    simp [handle_simulation_event, h1, h2]
  have hlk1 : (eraseRef r futures).lookup r = none :=
    lookup_eraseRef_self r futures
  refine ⟨by rw [hfut1]; exact hlk1, ?_, ?_⟩
  · rw [hfut1]
    simp [handle_simulation_event, h1, hlk1]
  · intro g pl
    rw [hfut1]
    simp only [handle_simulation_event, h1, hlk1]
    simp only [List.mem_append]
    rintro (h | h)
    · exact resolveFuture_not_mem_dispatch hooks _ _ g pl h
    · rcases hooks.onEvent with _ | _ <;> simp_all

/-- Witness for claim C9 at a concrete duplicate delivery. -/
theorem c9_duplicate_delivery_noop_witness :
    ((["rA", "rB"].map (fun x => (x, 1))).lookup "rA" = some 1) ∧
    (handle_simulation_event {}
        (handle_simulation_event {} [("rA", 1), ("rB", 2)]
          { typ := "simulation-event", reference := some "rA" }).eventFutures
        { typ := "simulation-event", reference := some "rA" }).eventFutures =
      (handle_simulation_event {} [("rA", 1), ("rB", 2)]
        { typ := "simulation-event", reference := some "rA" }).eventFutures
    := by
  refine ⟨by decide, ?_⟩
  exact (c9_duplicate_delivery_noop {} [("rA", 1), ("rB", 2)]
    { typ := "simulation-event", reference := some "rA" } "rA" 1 rfl
    (by decide)).2.1

/-- Membership in a conditional list collapses to the enabled branch. -/
theorem mem_ite_nil {α : Type} {p : Prop} [Decidable p] {l : List α}
    {e : α} (h : e ∈ if p then l else []) : e ∈ l := by
  split at h
  · exact h
  · simp at h

/-- Every effect of one persona-configuration entry is a character
command. -/
theorem personaCfgTrace_charCmds (w : List String) (pc : PersonaConfig)
    (e : Effect) (he : e ∈ personaCfgTrace w pc) :
    ∃ c g, e = Effect.charCmd c g := by
  unfold personaCfgTrace at he
  split at he
  · simp at he
  · split at he
    · simp at he
    · simp only [List.mem_append] at he
      rcases he with (((h | h) | h) | h) | h
      · have := mem_ite_nil h
        simp only [List.mem_singleton] at this
        exact ⟨_, _, this⟩
      · have := mem_ite_nil h
        simp only [List.mem_singleton] at this
        exact ⟨_, _, this⟩
      · have := mem_ite_nil h
        simp only [List.mem_singleton] at this
        exact ⟨_, _, this⟩
      · have := mem_ite_nil h
        simp only [List.mem_singleton] at this
        exact ⟨_, _, this⟩
      · have h2 := mem_ite_nil h
        rcases List.mem_cons.mp h2 with h3 | h3
        · exact ⟨_, _, h3⟩
        · rcases List.mem_map.mp h3 with ⟨m, _, hm⟩
          exact ⟨_, _, hm.symm⟩

/-- Every effect of the persona-configuration loop is a character
command. -/
theorem personaTrace_charCmds (w : List String)
    (cfgs : List PersonaConfig) (e : Effect)
    (he : e ∈ personaTrace w cfgs) : ∃ c g, e = Effect.charCmd c g := by
  unfold personaTrace at he
  rcases List.mem_flatMap.mp he with ⟨pc, _, hmem⟩
  exact personaCfgTrace_charCmds w pc e hmem

/-- Neither a pause, a resume, nor a hook call hides in the persona
loop. -/
theorem personaTrace_no_simCmd_no_hook (w : List String)
    (cfgs : List PersonaConfig) :
    (∀ c, Effect.simCmd c ∉ personaTrace w cfgs) ∧
    Effect.callOnReady ∉ personaTrace w cfgs := by
  constructor
  · intro c hmem
    rcases personaTrace_charCmds w cfgs _ hmem with ⟨c2, g2, h⟩
    simp at h
  · intro hmem
    rcases personaTrace_charCmds w cfgs _ hmem with ⟨c2, g2, h⟩
    simp at h

/-- Claim C4: for every simulation-ready message the handler completes
without raising, the trace starts with the pause; when an `on_ready` hook
is registered the pause strictly precedes the hook call, the resume is
issued iff the hook returned true, and any resume strictly follows the
hook call; with no hook registered the handler resumes by default and
never calls a hook. -/
theorem c4_ready_pause_hook_resume_order (cfg : ReadyCfg)
    (msg : GenericMessage)
    (hok : (on_ready_handle_request cfg msg).error = none) :
    ((on_ready_handle_request cfg msg).trace.head? =
      some (Effect.simCmd "pause")) ∧
    (cfg.onReady.isSome = true →
      List.Sublist [Effect.simCmd "pause", Effect.callOnReady]
        (on_ready_handle_request cfg msg).trace) ∧
    (∀ b, cfg.onReady = some b →
      (Effect.simCmd "resume" ∈ (on_ready_handle_request cfg msg).trace ↔
        b = true)) ∧
    (∀ b, cfg.onReady = some b → b = true →
      List.Sublist [Effect.callOnReady, Effect.simCmd "resume"]
        (on_ready_handle_request cfg msg).trace) ∧
    (cfg.onReady = none →
      Effect.simCmd "resume" ∈ (on_ready_handle_request cfg msg).trace ∧
      Effect.callOnReady ∉ (on_ready_handle_request cfg msg).trace) := by
  rcases hsd : msg.data.start_date with _ | sd
  · exfalso
    rw [on_ready_handle_request, hsd] at hok
    simp at hok
  rcases hvc : (msg.data.runtime_version.getD "" != "local.build" &&
      !((msg.data.runtime_version.getD "").startsWith
        cfg.requiredVersion)) with _ | _
  case true =>
    exfalso
    rw [on_ready_handle_request, hsd] at hok
    simp only [hvc, if_true] at hok
    simp at hok
  case false =>
  have htr : (on_ready_handle_request cfg msg).trace =
      Effect.simCmd "pause" :: Effect.simCmd "request-world-context" ::
        personaTrace cfg.worldPersonas cfg.personaConfigs ++
        (match cfg.onReady with
         | some b => [Effect.callOnReady] ++
             (if b then [Effect.simCmd "resume"] else [])
         | none => [Effect.simCmd "resume"]) := by
    rw [on_ready_handle_request, hsd]
    simp only [hvc, Bool.false_eq_true, if_false]
    rcases cfg.onReady with _ | b
    · simp
    · rcases b with _ | _ <;> simp
  rw [htr]
  have hps := personaTrace_no_simCmd_no_hook cfg.worldPersonas
    cfg.personaConfigs
  refine ⟨rfl, ?_, ?_, ?_, ?_⟩
  · intro hreg
    rcases hor : cfg.onReady with _ | b
    · rw [hor] at hreg; simp at hreg
    · simp only [hor]
      refine List.Sublist.cons₂ _ ?_
      apply List.singleton_sublist.mpr
      simp
  · intro b hor
    simp only [hor]
    rcases b with _ | _
    · simp only [Bool.false_eq_true, if_false, List.append_nil]
      constructor
      · intro hmem
        simp only [List.cons_append, List.mem_cons, List.mem_append,
          List.mem_singleton] at hmem
        rcases hmem with h | h | h
        · simp at h
        · simp at h
        · rcases h with h | h
          · exact absurd h (hps.1 "resume")
          · simp at h
      · intro h; simp at h
    · simp only [if_true]
      constructor
      · intro _; trivial
      · intro _
        simp only [List.cons_append, List.mem_cons]
        right; right
        simp
  · intro b hor hb
    subst hb
    simp only [hor, if_true]
    have hsub : List.Sublist ([Effect.callOnReady] ++ [Effect.simCmd "resume"])
        (personaTrace cfg.worldPersonas cfg.personaConfigs ++
          ([Effect.callOnReady] ++ [Effect.simCmd "resume"])) :=
      List.sublist_append_right _ _
    refine List.Sublist.cons _ (List.Sublist.cons _ ?_)
    simp only [List.append_assoc] at hsub ⊢
    exact hsub
  · intro hor
    simp only [hor]
    constructor
    · simp only [List.cons_append, List.mem_cons]
      right; right
      simp
    · intro hmem
      simp only [List.cons_append, List.mem_cons, List.mem_append,
        List.mem_singleton] at hmem
      rcases hmem with h | h | h
      · simp at h
      · simp at h
      · rcases h with h | h
        · exact absurd h hps.2
        · simp at h

/-- Witness for claim C4 at a concrete ready message and a registered
hook returning true. -/
theorem c4_ready_pause_hook_resume_order_witness :
    (on_ready_handle_request { onReady := some true }
      { typ := "simulation-ready"
        data := { start_date := some "1880-01-01T08:00:00"
                  runtime_version := some "local.build" } }).error = none ∧
    List.Sublist [Effect.simCmd "pause", Effect.callOnReady]
      (on_ready_handle_request { onReady := some true }
        { typ := "simulation-ready"
          data := { start_date := some "1880-01-01T08:00:00"
                    runtime_version := some "local.build" } }).trace := by
  refine ⟨by decide, ?_⟩
  exact (c4_ready_pause_hook_resume_order { onReady := some true }
    { typ := "simulation-ready"
      data := { start_date := some "1880-01-01T08:00:00"
                runtime_version := some "local.build" } }
    (by decide)).2.1 rfl

/-- Claim C10: when the ready message's `runtime_version` is neither
`"local.build"` nor prefixed by the required version, the handler raises
before issuing any command: its trace is empty (no pause, no `on_ready`
call, no resume) and the router converts the raised exception into an
`error` envelope. -/
theorem c10_version_gate (cfg : ReadyCfg) (msg : GenericMessage)
    (rv : String) (h1 : msg.data.runtime_version = some rv)
    (h2 : rv ≠ "local.build")
    (h3 : rv.startsWith cfg.requiredVersion = false) :
    (on_ready_handle_request cfg msg).trace = [] ∧
    (on_ready_handle_request cfg msg).error.isSome = true ∧
    (∀ routes vd st, routes.lookup msg.typ = some (.ready cfg) →
      ∃ e, (handle_message routes (.frame msg true vd st)).output =
        some (errEnvelope e)) := by
  have hvc : (msg.data.runtime_version.getD "" != "local.build" &&
      !((msg.data.runtime_version.getD "").startsWith
        cfg.requiredVersion)) = true := by
    rw [h1]
    simp [h2, h3]
  have hmain : (on_ready_handle_request cfg msg).trace = [] ∧
      (on_ready_handle_request cfg msg).error.isSome = true := by
    rcases hsd : msg.data.start_date with _ | sd
    · rw [on_ready_handle_request, hsd]
      exact ⟨rfl, rfl⟩
    · rw [on_ready_handle_request, hsd]
      simp [hvc]
  refine ⟨hmain.1, hmain.2, ?_⟩
  intro routes vd st hl
  rcases he : (on_ready_handle_request cfg msg).error with _ | e
  · exfalso
    rw [he] at hmain
    simp at hmain
  · refine ⟨"Error processing request: " ++ e, ?_⟩
    have hr : (runEndpoint (.ready cfg) msg).raised = some e := by
      simp [runEndpoint, he]
    simp [handle_message, hl, hr]

/-- Witness for claim C10 at a concrete wrong-version ready message. -/
theorem c10_version_gate_witness :
    ("9.9.9" : String).startsWith
      ({} : ReadyCfg).requiredVersion = false ∧
    (on_ready_handle_request {}
      { typ := "simulation-ready"
        data := { start_date := some "1880-01-01T08:00:00"
                  runtime_version := some "9.9.9" } }).trace = [] := by
  refine ⟨by decide, ?_⟩
  exact (c10_version_gate {}
    { typ := "simulation-ready"
      data := { start_date := some "1880-01-01T08:00:00"
                runtime_version := some "9.9.9" } }
    "9.9.9" rfl (by decide) (by decide)).1

/-- Claim C8: in every reachable state of the two-caller emit-lock
system, (1) at most one Strategy-A request is in flight (at most one
caller is between its `acquire` and its callback's `release`); (2) the
second caller's emit never occurs before the first caller's lock
release - between any two emits in the trace there is a release of the
first emitter; (3) observed emit order matches issue order: if caller
`i` requested (called `send_message`) before caller `j` and `j` emitted,
then `i` emitted first. -/
theorem c8_emit_lock_serializes (s : LockSys) (h : LockReachable s)
    (i j : Bool) (hij : i ≠ j) :
    (¬((lsPhase s i = .holding ∨ lsPhase s i = .emitted) ∧
       (lsPhase s j = .holding ∨ lsPhase s j = .emitted))) ∧
    (∀ x y z, s.trace = x ++ LockEv.emit i :: (y ++ LockEv.emit j :: z) →
      LockEv.release i ∈ y) ∧
    (List.Sublist [LockEv.request i, LockEv.request j] s.trace →
      LockEv.emit j ∈ s.trace →
      List.Sublist [LockEv.emit i, LockEv.emit j] s.trace) := by
  have hInv := lockInv_reachable s h
  refine ⟨?_, ?_, hInv.emitOrder i j hij⟩
  · rintro ⟨ha, hb⟩
    have h1 := (hInv.holderIff i).mpr ha
    have h2 := (hInv.holderIff j).mpr hb
    rw [h1] at h2
    exact hij (Option.some_inj.mp h2)
  · intro x y z hdec
    exact altOk_some_mutex s.trace (emittedHolder s) hInv.altInv x y z i j
      hdec

/-- A complete two-caller run: caller `false` acquires and emits, caller
`true` queues, the first acknowledgement wakes the second caller, which
emits and releases. -/
def lockRun1 : LockSys := stReqFree {} false

/-- Second step of the concrete run. -/
def lockRun2 : LockSys := stEmit lockRun1 false

/-- Third step of the concrete run. -/
def lockRun3 : LockSys := stReqQueued lockRun2 true

/-- Fourth step of the concrete run. -/
def lockRun4 : LockSys := stRelWake lockRun3 false true

/-- Fifth step of the concrete run. -/
def lockRun5 : LockSys := stEmit lockRun4 true

/-- Final state of the concrete run. -/
def lockRun6 : LockSys := stRelNone lockRun5 true

/-- The final state of the concrete run is reachable. -/
theorem lockRun6_reachable : LockReachable lockRun6 := by
  have t1 : LockStep {} lockRun1 :=
    LockStep.reqFree {} false (by decide) (by decide)
  have t2 : LockStep lockRun1 lockRun2 :=
    LockStep.emit lockRun1 false (by decide)
  have t3 : LockStep lockRun2 lockRun3 :=
    LockStep.reqQueued lockRun2 true false (by decide) (by decide)
  have t4 : LockStep lockRun3 lockRun4 :=
    LockStep.relWake lockRun3 false true [] (by decide) (by decide)
  have t5 : LockStep lockRun4 lockRun5 :=
    LockStep.emit lockRun4 true (by decide)
  have t6 : LockStep lockRun5 lockRun6 :=
    LockStep.relNone lockRun5 true (by decide) (by decide)
  exact Relation.ReflTransGen.tail (Relation.ReflTransGen.tail
    (Relation.ReflTransGen.tail (Relation.ReflTransGen.tail
      (Relation.ReflTransGen.tail (Relation.ReflTransGen.single t1) t2)
        t3) t4) t5) t6

/-- Witness for claim C8: the concrete run's trace, and the serialized
emit order delivered by the theorem at that reachable state. -/
theorem c8_emit_lock_serializes_witness :
    lockRun6.trace = [LockEv.request false, LockEv.emit false,
      LockEv.request true, LockEv.release false, LockEv.emit true,
      LockEv.release true] ∧
    List.Sublist [LockEv.emit false, LockEv.emit true] lockRun6.trace := by
  refine ⟨by decide, ?_⟩
  exact (c8_emit_lock_serializes lockRun6 lockRun6_reachable false true
    (by decide)).2.2 (by decide) (by decide)

end ThistleGulch
